import Mathlib

/-! BrowserCell.

A shallow embedding of `src/components/BrowserCell/BrowserCell.react.js`, the
component that draws one cell of the data browser, and theorems about its
change detector (`shouldComponentUpdate`), its value formatter (`render`) and
its context-menu builder (`onContextMenu`).

JavaScript values are a tree type in which every object carries the reference
it is identified by.  Numbers are integers plus `NaN`, the one number that is
not identical to itself.  Calls to the callbacks the cell receives are recorded
as a list, in the order in which they are made.
-/

namespace BrowserCell

/-! ## JavaScript values -/

/-- Classes of the Parse SDK whose instances a cell can hold. -/
inductive SDKClass where
  | object
  | acl
  | file
  | geoPoint
  | polygon
  | relation
  | date
  deriving DecidableEq, Repr

/-- A JavaScript value.  `obj`, `arr`, `func` and `inst` carry the reference
that `===` compares.  The fields of an object are its own enumerable properties
in iteration order.  `inst` is an instance of an SDK class: `fields` are the
properties the component reads from it and `json` is what its `toJSON()`
returns. -/
inductive JSValue where
  | undefined
  | null
  | bool (b : Bool)
  | num (n : Int)
  | nan
  | str (s : String)
  | obj (ref : Nat) (fields : List (String × JSValue))
  | arr (ref : Nat) (items : List JSValue)
  | func (ref : Nat)
  | inst (ref : Nat) (cls : SDKClass) (fields : List (String × JSValue)) (json : JSValue)

namespace JSValue

instance : Inhabited JSValue := ⟨undefined⟩

/-- The `typeof` operator. -/
def typeOf : JSValue → String
  | undefined => "undefined"
  | null => "object"
  | bool _ => "boolean"
  | num _ => "number"
  | nan => "number"
  | str _ => "string"
  | obj _ _ => "object"
  | arr _ _ => "object"
  | func _ => "function"
  | inst _ _ _ _ => "object"

/-- The `===` operator: primitives by value (`NaN` equals nothing), objects by
reference. -/
def strictEq : JSValue → JSValue → Bool
  | undefined, undefined => true
  | null, null => true
  | bool a, bool b => a == b
  | num a, num b => a == b
  | str a, str b => a == b
  | obj r _, obj s _ => r == s
  | arr r _, arr s _ => r == s
  | func r, func s => r == s
  | inst r _ _ _, inst s _ _ _ => r == s
  | _, _ => false

/-- The `!==` operator. -/
def strictNe (a b : JSValue) : Bool := !strictEq a b

/-- Truthiness (`ToBoolean`). -/
def truthy : JSValue → Bool
  | undefined => false
  | null => false
  | bool b => b
  | num n => n != 0
  | nan => false
  | str s => s != ""
  | _ => true

/-- Whether the value is `NaN`. -/
def isNaN : JSValue → Bool
  | nan => true
  | _ => false

end JSValue

open JSValue

/-! ## JSON text -/

/-- The double quote. -/
def dquote : Char := Char.ofNat 34

/-- The backslash. -/
def backslash : Char := Char.ofNat 92

/-- The opening brace. -/
def lbrace : Char := Char.ofNat 123

/-- The closing brace. -/
def rbrace : Char := Char.ofNat 125

/-- A lowercase hexadecimal digit. -/
def hexDigit (n : Nat) : Char :=
  if n < 10 then Char.ofNat (48 + n) else Char.ofNat (87 + n)

/-- The text `JSON.stringify` writes for one character of a string: the quote,
the backslash and the control characters are escaped. -/
def escapeChar (c : Char) : List Char :=
  if c = dquote then [backslash, dquote]
  else if c = backslash then [backslash, backslash]
  else if c.toNat = 8 then [backslash, 'b']
  else if c.toNat = 9 then [backslash, 't']
  else if c.toNat = 10 then [backslash, 'n']
  else if c.toNat = 12 then [backslash, 'f']
  else if c.toNat = 13 then [backslash, 'r']
  else if c.toNat < 32 then
    [backslash, 'u', '0', '0', hexDigit (c.toNat / 16), hexDigit (c.toNat % 16)]
  else [c]

/-- The escaped characters of a string, without the enclosing quotes. -/
def escapeChars : List Char → List Char
  | [] => []
  | c :: cs => escapeChar c ++ escapeChars cs

/-- A string as JSON text (`QuoteJSONString`). -/
def quoteJSON (s : String) : List Char :=
  dquote :: (escapeChars s.toList ++ [dquote])

/-- Join pieces with commas. -/
def commaJoin : List (List Char) → List Char
  | [] => []
  | [x] => x
  | x :: y :: rest => x ++ ',' :: commaJoin (y :: rest)

mutual
/-- The text of a value under `JSON.stringify`, `none` where JavaScript yields
`undefined` (the value is `undefined` or a function).  An SDK instance is
written through its `toJSON()`. -/
def serialize : JSValue → Option (List Char)
  | .undefined => none
  | .func _ => none
  | .null => some "null".toList
  | .bool b => some (if b then "true".toList else "false".toList)
  | .num n => some (toString n).toList
  | .nan => some "null".toList
  | .str s => some (quoteJSON s)
  | .obj _ fs => some (lbrace :: (commaJoin (serializeFields fs) ++ [rbrace]))
  | .arr _ xs => some ('[' :: (commaJoin (serializeItems xs) ++ [']']))
  | .inst _ _ _ j => serialize j
/-- The members of an object: a property whose value has no JSON text is left
out. -/
def serializeFields : List (String × JSValue) → List (List Char)
  | [] => []
  | (k, v) :: rest =>
    match serialize v with
    | none => serializeFields rest
    | some t => (quoteJSON k ++ ':' :: t) :: serializeFields rest
/-- The elements of an array: an element that has no JSON text is written
`null`. -/
def serializeItems : List JSValue → List (List Char)
  | [] => []
  | v :: rest => (serialize v).getD "null".toList :: serializeItems rest
end

/-- The function `JSON.stringify` with one argument; `none` is `undefined`. -/
def stringify (v : JSValue) : Option String :=
  (serialize v).map String.mk

/-! ## Prop sets and the change detector -/

/-- A prop set: property names with their values. -/
abbrev PropSet := List (String × JSValue)

/-- Property read `props[name]`: `undefined` when the property is absent. -/
def PropSet.get (p : PropSet) (name : String) : JSValue :=
  (p.lookup name).getD .undefined

/-- The array `Object.keys(props)`. -/
def PropSet.keys (p : PropSet) : List String := p.map Prod.fst

/-- The array `[...new Set(names)]`: every name once, at its first position. -/
def uniqueNames : List String → List String
  | [] => []
  | k :: ks => k :: (uniqueNames ks).filter (fun x => x != k)

/-- The method `shouldComponentUpdate(nextProps)` of the component whose
current props are `props`. -/
def shouldComponentUpdate (props nextProps : PropSet) : Bool :=
  let shallowVerifyProps :=
    (uniqueNames (props.keys ++ nextProps.keys)).filter (fun propName => propName != "value")
  if shallowVerifyProps.any (fun propName => strictNe (props.get propName) (nextProps.get propName)) then
    true
  else
    let value := props.get "value"
    let nextValue := nextProps.get "value"
    if typeOf value != typeOf nextValue then
      true
    else
      let isRefDifferent := strictNe value nextValue
      if isRefDifferent && typeOf value == "object" then
        stringify value != stringify nextValue
      else
        isRefDifferent

/-! ## Property reads, text conversion and SDK methods -/

/-- An exception, by its message. -/
abbrev JSError := String

/-- Property read `v.name` for the names the component reads (`__type`,
`className`, `objectId`, `id`, `iso`, `latitude`, `longitude`, `coordinates`,
`read`, `write`, member names of an ACL): raises on `undefined` and `null`, and
is `undefined` on a value that has no such property. -/
def getProp (v : JSValue) (name : String) : Except JSError JSValue :=
  match v with
  | .undefined => .error "TypeError: Cannot read properties of undefined"
  | .null => .error "TypeError: Cannot read properties of null"
  | .obj _ fs => .ok ((fs.lookup name).getD .undefined)
  | .inst _ _ fs _ => .ok ((fs.lookup name).getD .undefined)
  | _ => .ok .undefined

mutual
/-- String conversion (`ToString`), as done by a template literal and by `+`
with a string.  The text of a function and of an SDK instance is not carried by
the model: they are written as fixed texts. -/
def toText : JSValue → String
  | .undefined => "undefined"
  | .null => "null"
  | .bool b => if b then "true" else "false"
  | .num n => toString n
  | .nan => "NaN"
  | .str s => s
  | .obj _ _ => "[object Object]"
  | .arr _ xs => ",".intercalate (itemTexts xs)
  | .func _ => "function"
  | .inst _ _ _ _ => "[object Object]"
/-- The texts of the elements of an array under `join`: empty for `undefined`
and `null`. -/
def itemTexts : List JSValue → List String
  | [] => []
  | .undefined :: rest => "" :: itemTexts rest
  | .null :: rest => "" :: itemTexts rest
  | v :: rest => toText v :: itemTexts rest
end

/-- The object `new Parse.Object(className)` after `object.id = id`, allocated
at `ref`.  The constructor keeps a class name that is a string; the JSON form of
an object without attributes holds its id alone. -/
def newParseObject (ref : Nat) (className id : JSValue) : JSValue :=
  let cn := match className with
    | .str s => JSValue.str s
    | _ => .undefined
  .inst ref .object [("className", cn), ("id", id)]
    (.obj ref (if truthy id then [("objectId", id)] else []))

/-- The method `toPointer()` of `Parse.Object`: the wire form of a reference;
raises for an object without id, and on a value that has no such method. -/
def toPointer (v : JSValue) : Except JSError JSValue :=
  match v with
  | .inst ref .object fs _ =>
    let id := (fs.lookup "id").getD .undefined
    if truthy id then
      .ok (.obj ref [("__type", .str "Pointer"),
        ("className", (fs.lookup "className").getD .undefined), ("objectId", id)])
    else .error "Error: Cannot create a pointer to an unsaved ParseObject"
  | _ => .error "TypeError: value.toPointer is not a function"

/-- The method `toJSON()`: every SDK class has one; plain data has none. -/
def toJSON (v : JSValue) : Except JSError JSValue :=
  match v with
  | .inst _ _ _ j => .ok j
  | _ => .error "TypeError: value.toJSON is not a function"

/-- The method `url()` of `Parse.File`. -/
def fileUrl (v : JSValue) : Except JSError JSValue :=
  match v with
  | .inst _ .file fs _ => .ok ((fs.lookup "url").getD .undefined)
  | _ => .error "TypeError: value.url is not a function"

/-- The call `Object.prototype.hasOwnProperty.call(v, name)`. -/
def hasOwnProperty (v : JSValue) (name : String) : Except JSError Bool :=
  match v with
  | .undefined => .error "TypeError: Cannot convert undefined or null to object"
  | .null => .error "TypeError: Cannot convert undefined or null to object"
  | .obj _ fs => .ok ((fs.lookup name).isSome)
  | .inst _ _ fs _ => .ok ((fs.lookup name).isSome)
  | _ => .ok false

/-- The names a `for (let role in v)` loop visits. -/
def forInKeys (v : JSValue) : List String :=
  match v with
  | .obj _ fs => fs.map Prod.fst
  | .inst _ _ fs _ => fs.map Prod.fst
  | .arr _ xs => (List.range xs.length).map toString
  | .str s => (List.range s.length).map toString
  | _ => []

/-! ## The cell: props, collaborators and what it produces -/

/-- One applied filter: the `Map` of `field`, `constraint` and `compareTo`. -/
structure Filter where
  field : String
  constraint : String
  compareTo : JSValue

/-- A column of the schema: its type and, for a reference column, the class it
targets. -/
structure Column where
  type : JSValue
  targetClass : JSValue

/-- The value of `schema.data.get('classes')`: every class with its columns, in
iteration order. -/
abbrev SchemaClasses := List (String × List (String × Column))

/-- The props the component reads in `render` and in its event handlers. -/
structure Props where
  type : String
  value : JSValue
  hidden : Bool
  current : Bool
  width : JSValue
  row : JSValue
  col : JSValue
  field : String
  className : JSValue
  filters : Option (List Filter)
  simplifiedSchema : JSValue
  schema : SchemaClasses

/-- An entry of `Filters.Constraints`: the label of a constraint and whether it
takes a value to compare with. -/
structure ConstraintDef where
  name : String
  comparable : Bool

/-- A constraint catalog, as the module lib/Filters exports one: the query
`availableFilters(schema, filters)` and the table `Constraints`. -/
structure FilterCatalog where
  availableFilters : JSValue → Option (List Filter) → Option (List (String × List String))
  Constraints : String → Option ConstraintDef

/-- What the component finds outside its own file: `dateStringUTC`
(lib/DateUtils) and `getFileName` (lib/getFileName), which it imports, the
`Date` constructor of the runtime, and `Filters`.  The file uses the
identifier `Filters` but neither imports nor declares it: `Filters` is what the
global scope binds to that name, `none` when it binds nothing, as is the case
when the module runs as it is written. -/
structure Externals where
  newDate : JSValue → JSValue
  dateStringUTC : JSValue → Except JSError JSValue
  getFileName : JSValue → Except JSError JSValue
  Filters : Option FilterCatalog

/-- The style classes of the cell. -/
inductive StyleClass where
  | cell
  | unselectable
  | empty
  | current
  deriving DecidableEq, Repr

/-- What the cell shows. -/
inductive Content where
  /-- A value handed to React as it is. -/
  | value (v : JSValue)
  /-- The element `<span>&nbsp;</span>`. -/
  | nbsp
  /-- A link whose click calls `onPointerClick(target)`, around a pill. -/
  | pointerLink (target : JSValue) (pill : JSValue)
  /-- A pill showing a text. -/
  | pill (value : JSValue)
  /-- The pill "View relation", whose click calls `setRelation(value)`. -/
  | relationPill (value : JSValue)

/-- The outcome of `render`: the content, the style classes and the value left
in `this.copyableValue`. -/
structure Rendered where
  content : Content
  copyableValue : JSValue
  classes : List StyleClass

/-- What a menu entry does when it is chosen: the closures built in
`onContextMenu`, with the variables they capture. -/
inductive Callback where
  /-- The bound function `pickFilter.bind(this, constraint)`. -/
  | pickFilter (field : String) (value : JSValue) (type : String) (constraint : String)
  /-- The arrow function of a related-records entry. -/
  | relatedRecords (pointerClassName : JSValue) (value : JSValue) (className : String)
      (field : String)

/-- A sub-action of a menu group. -/
structure MenuAction where
  text : String
  callback : Callback

/-- A group of the context menu. -/
structure MenuGroup where
  text : String
  items : List MenuAction

/-- A call the cell makes on a callback it received, on the event or on its
DOM node. -/
inductive Call where
  | preventDefault
  | onSelect (row col : JSValue)
  | setCopyableValue (v : JSValue)
  | onEditChange (v : Bool)
  | onFilterChange (filters : List Filter)
  | setRelation (v : JSValue)
  | onPointerClick (arg : JSValue)
  | setContextMenu (x y : JSValue) (items : List MenuGroup)
  | scrollIntoView (block inline : String)

/-- What running a handler did: the calls it made, in order, and the exception
that ended it, if any. -/
structure Trace where
  calls : List Call
  error : Option JSError

/-! ## render -/

/-- The pieces pushed for the wildcard entry of an ACL in JSON form. -/
def publicPieces (json : JSValue) : Except JSError (List String) := do
  if ← hasOwnProperty json "*" then
    let star ← getProp json "*"
    if truthy (← getProp star "read") && truthy (← getProp star "write") then
      pure ["Public Read + Write"]
    else if truthy (← getProp star "read") then
      pure ["Public Read"]
    else if truthy (← getProp star "write") then
      pure ["Public Write"]
    else
      pure []
  else
    pure []

/-- The text of an ACL cell, from the JSON form of the ACL. -/
def aclText (json : JSValue) : Except JSError String := do
  let pieces ← publicPieces json
  let pieces := pieces ++ (forInKeys json).filter (fun role => role != "*")
  let pieces := if pieces.length == 0 then pieces ++ ["Master Key Only"] else pieces
  pure (", ".intercalate pieces)

/-- The method `render()`, as far as the content, the style classes and
`this.copyableValue` go.  `fresh` is the reference given to an object that
`render` allocates. -/
def render (ext : Externals) (fresh : Nat) (props : Props) : Except JSError Rendered :=
  let type := props.type
  let value := props.value
  let classes := [StyleClass.cell, StyleClass.unselectable]
  let done (content : Content) (copyableValue : JSValue) (classes : List StyleClass) :
      Except JSError Rendered :=
    .ok ⟨content, copyableValue, if props.current then classes ++ [.current] else classes⟩
  if props.hidden then
    done (.value (.str "(hidden)")) value (classes ++ [.empty])
  else if strictEq value .undefined then
    if type == "ACL" then
      done (.value (.str "Public Read + Write")) (.str "Public Read + Write") classes
    else
      done (.value (.str "(undefined)")) (.str "(undefined)") (classes ++ [.empty])
  else if strictEq value .null then
    done (.value (.str "(null)")) (.str "(null)") (classes ++ [.empty])
  else if strictEq value (.str "") then
    done .nbsp value (classes ++ [.empty])
  else if type == "Pointer" then do
    let isWire ← if truthy value then (do pure (truthy (← getProp value "__type"))) else pure false
    let value ← if isWire then
        (do pure (newParseObject fresh (← getProp value "className") (← getProp value "objectId")))
      else pure value
    let id ← getProp value "id"
    done (.pointerLink value id) id classes
  else if type == "Date" then do
    let isWire ← if typeOf value == "object" then (do pure (truthy (← getProp value "__type")))
      else pure false
    let value ← if isWire then (do pure (ext.newDate (← getProp value "iso")))
      else if typeOf value == "string" then pure (ext.newDate value)
      else pure value
    let text ← ext.dateStringUTC value
    done (.value text) text classes
  else if type == "Boolean" then
    let text := JSValue.str (if truthy value then "True" else "False")
    done (.value text) text classes
  else if type == "Object" || type == "Bytes" || type == "Array" then
    let text := match stringify value with
      | some s => JSValue.str s
      | none => .undefined
    done (.value text) text classes
  else if type == "File" then do
    let fileName ← if truthy (← fileUrl value) then ext.getFileName value
      else pure (.str "Uploading…")
    done (.pill fileName) fileName classes
  else if type == "ACL" then do
    let text ← aclText (← toJSON value)
    done (.value (.str text)) (.str text) classes
  else if type == "GeoPoint" then do
    let text := "(" ++ toText (← getProp value "latitude") ++ ", " ++
      toText (← getProp value "longitude") ++ ")"
    done (.value (.str text)) (.str text) classes
  else if type == "Polygon" then do
    match ← getProp value "coordinates" with
    | .arr _ coords =>
      let texts := JSValue.arr fresh (coords.map (fun coord => .str ("(" ++ toText coord ++ ")")))
      done (.value texts) texts classes
    | _ => .error "TypeError: value.coordinates.map is not a function"
  else if type == "Relation" then
    done (.relationPill value) .undefined classes
  else
    done (.value value) value classes

/-! ## Event handlers -/

/-- The handler `onClick`. -/
def onClick (props : Props) (copyableValue : JSValue) : Trace :=
  ⟨[.onSelect props.row props.col,
    .setCopyableValue (if props.hidden then .undefined else copyableValue)], none⟩

/-- The handler `onDoubleClick`. -/
def onDoubleClick (props : Props) : Trace :=
  if props.type != "Relation" then ⟨[.onEditChange true], none⟩ else ⟨[], none⟩

/-- The handler `onTouchEnd`. -/
def onTouchEnd (props : Props) : Trace :=
  if props.current && props.type != "Relation" then
    if ["ACL", "Boolean", "File"].contains props.type then
      ⟨[.preventDefault, .onEditChange true], none⟩
    else
      ⟨[.onEditChange true], none⟩
  else ⟨[], none⟩

/-- The function `pickFilter(constraint, addToExistingFilter)` that
`onContextMenu` defines; `field`, `value` and `type` are the constants it
captures and `props` is `this.props` when it runs. -/
def pickFilter (props : Props) (field : String) (value : JSValue) (type : String)
    (constraint : String) (addToExistingFilter : JSValue) : Trace :=
  let filters := if truthy addToExistingFilter then props.filters else some []
  match (if type == "Pointer" then toPointer value else .ok value) with
  | .error err => ⟨[], some err⟩
  | .ok compareTo =>
    match filters with
    | none => ⟨[], some "TypeError: Cannot read properties of undefined"⟩
    | some fs => ⟨[.onFilterChange (fs ++ [⟨field, constraint, compareTo⟩])], none⟩

/-- The arrow function of a related-records entry. -/
def relatedRecords (fresh : Nat) (props : Props) (pointerClassName value : JSValue)
    (className field : String) : Trace :=
  let relatedObject :=
    if props.field == "objectId" then newParseObject fresh pointerClassName value else value
  match toPointer relatedObject with
  | .error err => ⟨[], some err⟩
  | .ok pointer =>
    ⟨[.onPointerClick (.obj (fresh + 1)
        [("className", .str className), ("id", pointer), ("field", .str field)])], none⟩

/-- Running the callback of a menu entry with the arguments `args`; `props` is
`this.props` at that moment and `fresh` the next free reference. -/
def Callback.invoke (fresh : Nat) (props : Props) (args : List JSValue) : Callback → Trace
  | .pickFilter field value type constraint =>
    BrowserCell.pickFilter props field value type constraint (args.headD .undefined)
  | .relatedRecords pointerClassName value className field =>
    BrowserCell.relatedRecords fresh props pointerClassName value className field

/-- Reading the identifier `Filters`: a ReferenceError when nothing is bound to
it. -/
def readFilters (ext : Externals) : Except JSError FilterCatalog :=
  match ext.Filters with
  | some catalog => .ok catalog
  | none => .error "ReferenceError: Filters is not defined"

/-- The array `constraints.map(constraint => ...)`, written twice in
`onContextMenu`: one entry per constraint; every entry reads
`Filters.Constraints[constraint]`. -/
def filterActions (ext : Externals) (field : String) (value : JSValue) (type : String)
    (copyableValue : JSValue) : List String → Except JSError (List MenuAction)
  | [] => .ok []
  | constraint :: rest =>
    match readFilters ext with
    | .error err => .error err
    | .ok catalog =>
      match catalog.Constraints constraint with
      | none => .error "TypeError: Cannot read properties of undefined"
      | some definition =>
        match filterActions ext field value type copyableValue rest with
        | .error err => .error err
        | .ok actions =>
          .ok (⟨field ++ " " ++ definition.name ++
                (if definition.comparable then " " ++ toText copyableValue else ""),
              .pickFilter field value type constraint⟩ :: actions)

/-- The value of `constraints` in `onContextMenu`: `available && available[field]`,
where `available` is `Filters.availableFilters(simplifiedSchema, filters)`;
`none` when it is falsy.  Reading `Filters` is the first thing that can raise. -/
def offeredConstraints (ext : Externals) (props : Props) :
    Except JSError (Option (List String)) :=
  match readFilters ext with
  | .error err => .error err
  | .ok catalog =>
    .ok ((catalog.availableFilters props.simplifiedSchema props.filters).bind
      (fun available => available.lookup props.field))

/-- The test `this.props.filters && this.props.filters.size > 0`. -/
def hasFilters (props : Props) : Bool :=
  match props.filters with
  | some fs => decide (fs.length > 0)
  | none => false

/-- The filter groups of the menu: "Set filter..." when there are constraints,
followed by "Add filter..." when filters are applied already. -/
def filterGroups (ext : Externals) (props : Props) (copyableValue : JSValue) :
    Except JSError (List MenuGroup) :=
  match offeredConstraints ext props with
  | .error err => .error err
  | .ok none => .ok []
  | .ok (some constraints) =>
    match filterActions ext props.field props.value props.type copyableValue constraints with
    | .error err => .error err
    | .ok setItems =>
      if hasFilters props then
        match filterActions ext props.field props.value props.type copyableValue constraints with
        | .error err => .error err
        | .ok addItems => .ok [⟨"Set filter...", setItems⟩, ⟨"Add filter...", addItems⟩]
      else
        .ok [⟨"Set filter...", setItems⟩]

/-- The value of `pointerClassName`:
`(value && value.className) || (field === 'objectId' && className)`. -/
def pointerClassName (props : Props) : JSValue :=
  let left := if truthy props.value then
      (match getProp props.value "className" with
       | .ok v => v
       | .error _ => .undefined)
    else props.value
  if truthy left then left
  else if props.field == "objectId" then props.className
  else .bool false

/-- The entries of the related-records group: one per column of the schema
whose target class is `pointerClassName`. -/
def relatedItems (props : Props) (pointerClassName : JSValue) : List MenuAction :=
  props.schema.flatMap (fun cls =>
    cls.2.filterMap (fun column =>
      if strictNe column.2.targetClass pointerClassName then none
      else some ⟨cls.1, .relatedRecords pointerClassName props.value cls.1 column.1⟩))

/-- The related-records group, when there is one. -/
def relatedGroups (props : Props) : List MenuGroup :=
  let pointerClassName := pointerClassName props
  if truthy pointerClassName then
    let items := relatedItems props pointerClassName
    if items.length > 0 then [⟨"Get related records from...", items⟩] else []
  else []

/-- The array `menuItems` that `onContextMenu` assembles: the filter groups,
whose making raises when `Filters` is not bound, then the related-records
group. -/
def menuItems (ext : Externals) (props : Props) (copyableValue : JSValue) :
    Except JSError (List MenuGroup) :=
  match filterGroups ext props copyableValue with
  | .error err => .error err
  | .ok groups => .ok (groups ++ relatedGroups props)

/-- A DOM event, as far as the handler reads it. -/
structure Event where
  type : String
  pageX : JSValue
  pageY : JSValue

/-- The handler `onContextMenu`: `preventDefault`, `onSelect` and
`setCopyableValue` come before the menu is assembled, so they are made also when
assembling it raises. -/
def onContextMenu (ext : Externals) (props : Props) (copyableValue : JSValue) (e : Event) :
    Trace :=
  if e.type != "contextmenu" then ⟨[], none⟩
  else
    let before := [Call.preventDefault, .onSelect props.row props.col,
      .setCopyableValue (if props.hidden then .undefined else copyableValue)]
    match menuItems ext props copyableValue with
    | .error err => ⟨before, some err⟩
    | .ok items =>
      if items.length != 0 then
        ⟨before ++ [.setContextMenu e.pageX e.pageY items], none⟩
      else ⟨before, none⟩

/-! ## componentDidUpdate -/

/-- The box `node.getBoundingClientRect()`. -/
structure Rect where
  left : Int
  right : Int
  bottom : Int
  top : Int

/-- The method `componentDidUpdate()`; `innerWidth` and `innerHeight` are those
of the window. -/
def componentDidUpdate (props : Props) (copyableValue : JSValue) (rect : Rect)
    (innerWidth innerHeight : Int) : List Call :=
  if props.current then
    let leftBoundary : Int := if innerWidth > 980 then 300 else 0
    let topBoundary : Int := 126
    let scroll :=
      if rect.left < leftBoundary || rect.right > innerWidth then
        [Call.scrollIntoView "nearest" "start"]
      else if rect.top < topBoundary || rect.bottom > innerHeight then
        [Call.scrollIntoView "nearest" "nearest"]
      else []
    scroll ++ (if !props.hidden then [.setCopyableValue copyableValue] else [])
  else []

/-! ## Notions the statements use -/

/-- Whether an entry of an ACL in JSON form grants the right `read` or
`write`. -/
def grants (entry : JSValue) (right : String) : Bool :=
  match getProp entry right with
  | .ok v => truthy v
  | .error _ => false

/-- The public label of an ACL whose JSON form has the entries `fs`: none when
there is no wildcard entry. -/
def publicLabel (fs : List (String × JSValue)) : List String :=
  match fs.lookup "*" with
  | none => []
  | some entry =>
    if grants entry "read" && grants entry "write" then ["Public Read + Write"]
    else if grants entry "read" then ["Public Read"]
    else if grants entry "write" then ["Public Write"]
    else []

/-- The pieces of the text of an ACL: the public label, then every key other
than the wildcard, in iteration order. -/
def aclPieces (fs : List (String × JSValue)) : List String :=
  publicLabel fs ++ (fs.map Prod.fst).filter (fun role => role != "*")

/-- The text of an ACL: its pieces joined by ", ", and "Master Key Only" when
there is no piece. -/
def aclDisplay (fs : List (String × JSValue)) : String :=
  if (aclPieces fs).isEmpty then "Master Key Only" else ", ".intercalate (aclPieces fs)

mutual
/-- Equality of two values up to the references of the objects in them: the
same kind of value, the same keys in the same order, the same elements. -/
def sameShape : JSValue → JSValue → Bool
  | .undefined, .undefined => true
  | .null, .null => true
  | .bool a, .bool b => a == b
  | .num a, .num b => a == b
  | .nan, .nan => true
  | .str a, .str b => a == b
  | .obj _ fs, .obj _ gs => sameShapeFields fs gs
  | .arr _ xs, .arr _ ys => sameShapeItems xs ys
  | .func r, .func s => r == s
  | .inst _ c fs j, .inst _ d gs k => c == d && sameShapeFields fs gs && sameShape j k
  | _, _ => false
/-- Equality of two lists of members up to references. -/
def sameShapeFields : List (String × JSValue) → List (String × JSValue) → Bool
  | [], [] => true
  | (k, v) :: fs, (l, w) :: gs => k == l && sameShape v w && sameShapeFields fs gs
  | _, _ => false
/-- Equality of two lists of elements up to references. -/
def sameShapeItems : List JSValue → List JSValue → Bool
  | [], [] => true
  | v :: xs, w :: ys => sameShape v w && sameShapeItems xs ys
  | _, _ => false
end

/-- Two objects have the same set of keys, each mapped to the same value,
whatever the order of the keys. -/
def sameMembers (fs gs : List (String × JSValue)) : Bool :=
  fs.all (fun kv => (gs.lookup kv.1).isSome) && gs.all (fun kv => (fs.lookup kv.1).isSome) &&
    fs.all (fun kv =>
      sameShape ((fs.lookup kv.1).getD .undefined) ((gs.lookup kv.1).getD .undefined))

mutual
/-- JSON data: `null`, booleans, integers, strings, and arrays and plain objects
of JSON data. -/
def isJSONData : JSValue → Bool
  | .null => true
  | .bool _ => true
  | .num _ => true
  | .str _ => true
  | .obj _ fs => isJSONFields fs
  | .arr _ xs => isJSONItems xs
  | _ => false
/-- Every member is JSON data. -/
def isJSONFields : List (String × JSValue) → Bool
  | [] => true
  | (_, v) :: fs => isJSONData v && isJSONFields fs
/-- Every element is JSON data. -/
def isJSONItems : List JSValue → Bool
  | [] => true
  | v :: xs => isJSONData v && isJSONItems xs
end

/-- The (class, field) pairs of the schema whose column targets the class `C`,
in iteration order. -/
def targetingColumns (schema : SchemaClasses) (C : String) : List (String × String) :=
  schema.flatMap (fun cls =>
    (cls.2.filter (fun column =>
      match column.2.targetClass with
      | .str t => t == C
      | _ => false)).map (fun column => (cls.1, column.1)))

/-- The values passed to `setCopyableValue` in a list of calls, in order. -/
def copyCalls (calls : List Call) : List JSValue :=
  calls.filterMap (fun call =>
    match call with
    | .setCopyableValue v => some v
    | _ => none)

/-- The pieces of a Polygon cell: the text "(c)" for every vertex `c`, in
vertex order. -/
def polygonPieces (coords : List JSValue) : List String :=
  coords.map (fun coord => "(" ++ toText coord ++ ")")

/-! ## Reading JSON text back -/

/-- The value of a decimal digit character. -/
def digitValue (c : Char) : Nat := c.toNat - 48

/-- The number a list of decimal digits writes. -/
def decodeDigits (cs : List Char) : Nat :=
  cs.foldl (fun acc c => acc * 10 + digitValue c) 0

/-- The value of a hexadecimal digit character. -/
def hexValue (c : Char) : Nat :=
  if c.toNat < 58 then c.toNat - 48 else c.toNat - 87

/-- Reading back the first character of an escaped text, with what follows
it. -/
def unescapeHead : List Char → Option (Char × List Char)
  | [] => none
  | c :: rest =>
    if c = dquote then none
    else if c = backslash then
      match rest with
      | [] => none
      | t :: rest =>
        if t = dquote then some (dquote, rest)
        else if t = backslash then some (backslash, rest)
        else if t = 'b' then some (Char.ofNat 8, rest)
        else if t = 't' then some (Char.ofNat 9, rest)
        else if t = 'n' then some (Char.ofNat 10, rest)
        else if t = 'f' then some (Char.ofNat 12, rest)
        else if t = 'r' then some (Char.ofNat 13, rest)
        else
          match rest with
          | _ :: _ :: h1 :: h2 :: rest =>
            some (Char.ofNat (hexValue h1 * 16 + hexValue h2), rest)
          | _ => none
    else some (c, rest)

/-- The pieces after the first one, each behind its comma. -/
def commaTail : List (List Char) → List Char
  | [] => []
  | x :: rest => ',' :: (x ++ commaTail rest)

/-- Whether a text can follow a value inside a JSON text: it is empty or starts
with a comma or a closing bracket. -/
def endsValue : List Char → Bool
  | [] => true
  | c :: _ => c == ',' || c == rbrace || c == ']'

/-- The kind of value a JSON text starts, by its first character. -/
def leadKind (c : Char) : Nat :=
  if c = 'n' then 0
  else if c = 't' ∨ c = 'f' then 1
  else if c.isDigit = true ∨ c = '-' then 2
  else if c = dquote then 3
  else if c = lbrace then 4
  else if c = '[' then 5
  else 6

/-- The kind of a value of JSON data. -/
def valueKind : JSValue → Nat
  | .null => 0
  | .bool _ => 1
  | .num _ => 2
  | .str _ => 3
  | .obj _ _ => 4
  | .arr _ _ => 5
  | _ => 6

/-! ## Sample data -/

/-- The collaborators of the examples, with the module run as it is written:
nothing is bound to `Filters`. -/
def sampleExternals : Externals where
  newDate := fun v => .inst 0 .date [] v
  dateStringUTC := fun v => .ok (.str (toText v))
  getFileName := fun v => getProp v "name"
  Filters := none

/-- A catalog that offers `exists` and `eq` for the field `name`, and `eq` for
the field `author`. -/
def sampleCatalog : FilterCatalog where
  availableFilters := fun _ _ => some [("name", ["exists", "eq"]), ("author", ["eq"])]
  Constraints := fun c =>
    if c == "exists" then some ⟨"exists", false⟩
    else if c == "eq" then some ⟨"equals", true⟩
    else none

/-- The collaborators of the examples after `sampleCatalog` has been bound to
the global name `Filters`, which the module itself does not do. -/
def injectedExternals : Externals :=
  { sampleExternals with Filters := some sampleCatalog }

/-- The message of the exception raised on reading the unbound `Filters`. -/
def filtersNotDefined : JSError := "ReferenceError: Filters is not defined"

/-- A String cell of the class `Post`, with one filter applied. -/
def sampleProps : Props where
  type := "String"
  value := .str "x"
  hidden := false
  current := false
  width := .num 150
  row := .num 0
  col := .num 1
  field := "name"
  className := .str "Post"
  filters := some [⟨"title", "exists", .undefined⟩]
  simplifiedSchema := .obj 0 []
  schema := [("Comment", [("post", ⟨.str "Pointer", .str "Post"⟩)])]

/-- A Pointer cell of the class `Post` that refers to the user `abc123`, with
no filter applied. -/
def samplePointerProps : Props where
  type := "Pointer"
  value := .inst 7 .object [("className", .str "User"), ("id", .str "abc123")]
    (.obj 7 [("objectId", .str "abc123")])
  hidden := false
  current := true
  width := .num 150
  row := .num 0
  col := .num 2
  field := "author"
  className := .str "Post"
  filters := none
  simplifiedSchema := .obj 0 []
  schema := [("Comment", [("post", ⟨.str "Pointer", .str "Post"⟩)])]

/-- The schema of the examples: `Comment.post` and `Like.target` refer to
`Post`, `Comment.author` refers to `User`. -/
def sampleSchema : SchemaClasses :=
  [("Comment", [("text", ⟨.str "String", .undefined⟩), ("post", ⟨.str "Pointer", .str "Post"⟩),
      ("author", ⟨.str "Pointer", .str "User"⟩)]),
    ("Post", [("title", ⟨.str "String", .undefined⟩)]),
    ("Like", [("target", ⟨.str "Pointer", .str "Post"⟩)])]

/-- The objectId cell of the record `p1` of the class `Post`. -/
def sampleObjectIdProps : Props where
  type := "String"
  value := .str "p1"
  hidden := false
  current := false
  width := .num 150
  row := .num 0
  col := .num 0
  field := "objectId"
  className := .str "Post"
  filters := none
  simplifiedSchema := .obj 0 []
  schema := sampleSchema

/-- A Pointer cell of the class `Comment` whose value is a `Post` object that
has a class name and no id. -/
def sampleUnsavedProps : Props where
  type := "Pointer"
  value := .inst 9 .object [("className", .str "Post"), ("id", .undefined)] (.obj 9 [])
  hidden := false
  current := false
  width := .num 150
  row := .num 0
  col := .num 3
  field := "post"
  className := .str "Comment"
  filters := none
  simplifiedSchema := .obj 0 []
  schema := sampleSchema

/-- A Polygon with the two vertices (1, 2) and (3, 4). -/
def samplePolygon : JSValue :=
  .inst 5 .polygon
    [("coordinates", .arr 6 [.arr 7 [.num 1, .num 2], .arr 8 [.num 3, .num 4]])]
    (.obj 5 [("__type", .str "Polygon"),
      ("coordinates", .arr 6 [.arr 7 [.num 1, .num 2], .arr 8 [.num 3, .num 4]])])

/-! ## The value formatter -/

/-- C1. With `value = undefined` and `hidden = false`, `render` yields display
and copyable value both "Public Read + Write" if and only if the type is 'ACL',
and both "(undefined)" for every other type. -/
theorem render_undefined (ext : Externals) (fresh : Nat) (props : Props) :
    ∃ r, render ext fresh { props with value := .undefined, hidden := false } = .ok r ∧
      ((r.content = .value (.str "Public Read + Write") ∧
          r.copyableValue = .str "Public Read + Write") ↔ props.type = "ACL") ∧
      (props.type ≠ "ACL" →
        r.content = .value (.str "(undefined)") ∧ r.copyableValue = .str "(undefined)") := by
  by_cases h : props.type = "ACL"
  · refine ⟨⟨.value (.str "Public Read + Write"), .str "Public Read + Write",
      if props.current then [.cell, .unselectable, .current] else [.cell, .unselectable]⟩,
      ?_, ?_, ?_⟩
    · simp [render, strictEq, h]
    · simp [h]
    · simp [h]
  · refine ⟨⟨.value (.str "(undefined)"), .str "(undefined)",
      if props.current then [.cell, .unselectable, .empty, .current]
      else [.cell, .unselectable, .empty]⟩, ?_, ?_, ?_⟩
    · simp [render, strictEq, h]
    · simp [h]
    · simp [h]

/-- C2, as the claim states it, fails: the hidden cell holding "secret" shows
"(hidden)" while `render` leaves "secret", not `undefined`, in the copyable
value. -/
theorem render_hidden_keeps_raw_value :
    render sampleExternals 0 { sampleProps with value := .str "secret", hidden := true } =
        .ok ⟨.value (.str "(hidden)"), .str "secret", [.cell, .unselectable, .empty]⟩ ∧
      JSValue.str "secret" ≠ .undefined := by
  constructor
  · rfl
  · intro h; cases h

/-- C2, amended. For every type and raw value, a hidden cell shows "(hidden)",
styled empty; `render` leaves the raw value in the copyable value, and a click
publishes `undefined` in its place. -/
theorem render_hidden (ext : Externals) (fresh : Nat) (props : Props) :
    ∃ r, render ext fresh { props with hidden := true } = .ok r ∧
      r.content = .value (.str "(hidden)") ∧ StyleClass.empty ∈ r.classes ∧
      r.copyableValue = props.value ∧
      onClick { props with hidden := true } r.copyableValue =
        ⟨[.onSelect props.row props.col, .setCopyableValue .undefined], none⟩ := by
  refine ⟨⟨.value (.str "(hidden)"), props.value,
    if props.current then [.cell, .unselectable, .empty, .current]
    else [.cell, .unselectable, .empty]⟩, ?_, rfl, ?_, rfl, ?_⟩
  · simp [render]
  · by_cases hc : props.current <;> simp [hc]
  · simp [onClick]

theorem getProp_ok (w : JSValue) (name : String) (h1 : w ≠ .undefined) (h2 : w ≠ .null) :
    ∃ v, getProp w name = .ok v := by
  cases w <;> simp [getProp] at *

theorem publicPieces_obj (r : Nat) (fs : List (String × JSValue))
    (hstar : ∀ w, fs.lookup "*" = some w → w ≠ .undefined ∧ w ≠ .null) :
    publicPieces (.obj r fs) = .ok (publicLabel fs) := by
  unfold publicPieces publicLabel
  cases hl : fs.lookup "*" with
  | none => simp [hasOwnProperty, hl, bind, Except.bind, pure, Except.pure]
  | some w =>
    obtain ⟨h1, h2⟩ := hstar w hl
    obtain ⟨a, ha⟩ := getProp_ok w "read" h1 h2
    obtain ⟨b, hb⟩ := getProp_ok w "write" h1 h2
    have hw : getProp (.obj r fs) "*" = .ok w := by simp [getProp, hl]
    simp only [hasOwnProperty, hl, hw, ha, hb, grants, bind, Except.bind, pure, Except.pure,
      Option.isSome_some, if_true]
    by_cases hr : truthy a <;> by_cases hwr : truthy b <;> simp [hr, hwr]

theorem aclText_obj (r : Nat) (fs : List (String × JSValue))
    (hstar : ∀ w, fs.lookup "*" = some w → w ≠ .undefined ∧ w ≠ .null) :
    aclText (.obj r fs) = .ok (aclDisplay fs) := by
  unfold aclText aclDisplay aclPieces
  rw [publicPieces_obj r fs hstar]
  simp only [forInKeys, bind, Except.bind, pure, Except.pure]
  cases publicLabel fs ++ List.filter (fun role => role != "*") (List.map Prod.fst fs) with
  | nil => rfl
  | cons x xs => simp

/-- C3. For a non-hidden ACL cell whose value has the JSON form `j` with entries
`fs` (a wildcard entry, if any, being an object), display and copyable value
are the same text: the public label followed by every non-wildcard key, in
iteration order, joined by ", ", and "Master Key Only" when there is no such
piece, as when `j` has no entries at all. -/
theorem render_acl (ext : Externals) (fresh : Nat) (props : Props) (ref r : Nat)
    (cls : SDKClass) (fields fs : List (String × JSValue))
    (hstar : ∀ w, fs.lookup "*" = some w → w ≠ .undefined ∧ w ≠ .null) :
    ∃ res, render ext fresh { props with
        type := "ACL", hidden := false, value := .inst ref cls fields (.obj r fs) } = .ok res ∧
      res.content = .value (.str (aclDisplay fs)) ∧ res.copyableValue = .str (aclDisplay fs) ∧
      (aclPieces fs ≠ [] → aclDisplay fs = ", ".intercalate (aclPieces fs)) ∧
      (fs = [] → aclDisplay fs = "Master Key Only") := by
  refine ⟨⟨.value (.str (aclDisplay fs)), .str (aclDisplay fs),
    if props.current then [.cell, .unselectable, .current] else [.cell, .unselectable]⟩,
    ?_, rfl, rfl, ?_, ?_⟩
  · simp [render, strictEq, toJSON, aclText_obj r fs hstar, bind, Except.bind]
  · intro hne
    unfold aclDisplay
    cases hp : aclPieces fs with
    | nil => exact absurd hp hne
    | cons x xs => simp
  · intro hfs
    subst hfs
    rfl

/-- The two examples of C3: the form whose single entry '*' grants read gives
"Public Read", and the empty form gives "Master Key Only". -/
theorem render_acl_witness :
    (∃ res, render sampleExternals 0 { sampleProps with
          type := "ACL", hidden := false,
          value := .inst 1 .acl [] (.obj 2 [("*", .obj 3 [("read", .bool true)])]) } = .ok res ∧
        res.content = .value (.str (aclDisplay [("*", .obj 3 [("read", .bool true)])])) ∧
        res.copyableValue = .str (aclDisplay [("*", .obj 3 [("read", .bool true)])]) ∧
        (aclPieces [("*", .obj 3 [("read", .bool true)])] ≠ [] →
          aclDisplay [("*", .obj 3 [("read", .bool true)])] =
            ", ".intercalate (aclPieces [("*", .obj 3 [("read", .bool true)])])) ∧
        ([("*", JSValue.obj 3 [("read", .bool true)])] = [] →
          aclDisplay [("*", .obj 3 [("read", .bool true)])] = "Master Key Only")) ∧
      aclDisplay [("*", .obj 3 [("read", .bool true)])] = "Public Read" ∧
      aclDisplay [] = "Master Key Only" :=
  ⟨render_acl sampleExternals 0 sampleProps 1 2 .acl [] [("*", .obj 3 [("read", .bool true)])]
      (by
        intro w h
        simp only [List.lookup, beq_self_eq_true, Option.some.injEq] at h
        subst h
        exact ⟨(fun h => by cases h), (fun h => by cases h)⟩),
    by decide, by decide⟩

/-! ## The change detector -/

theorem mem_uniqueNames (k : String) (l : List String) : k ∈ uniqueNames l ↔ k ∈ l := by
  induction l with
  | nil => simp [uniqueNames]
  | cons x xs ih =>
    simp only [uniqueNames, List.mem_cons, List.mem_filter, ih]
    by_cases h : k = x <;> simp [h]

theorem strictEq_self (v : JSValue) (h : v.isNaN = false) : strictEq v v = true := by
  cases v <;> simp [strictEq, isNaN] at *

theorem get_mem_or_undefined (p : PropSet) (name : String) :
    p.get name = .undefined ∨ ∃ kv ∈ p, kv.2 = p.get name := by
  unfold PropSet.get
  cases h : p.lookup name with
  | none => left; rfl
  | some v =>
    right
    obtain ⟨l₁, l₂, rfl, _⟩ := List.lookup_eq_some_iff.mp h
    exact ⟨(name, v), by simp, rfl⟩

theorem get_undefined_of_not_mem (p : PropSet) (name : String) (h : name ∉ p.keys) :
    p.get name = .undefined := by
  unfold PropSet.get
  have hnone : p.lookup name = none := by
    rw [List.lookup_eq_none_iff]
    intro kv hkv
    simp only [PropSet.keys, List.mem_map, not_exists, not_and] at h
    have h2 := h kv hkv
    simp only [bne_iff_ne, ne_eq]
    exact fun he => h2 he.symm
  rw [hnone]; rfl

/-- When no property other than `value` differs, the fast path of
`shouldComponentUpdate` does not fire. -/
theorem no_shallow_change (prev next : PropSet)
    (h : ∀ name ∈ prev.keys ++ next.keys, name ≠ "value" →
      strictNe (prev.get name) (next.get name) = false) :
    ((uniqueNames (prev.keys ++ next.keys)).filter (fun propName => propName != "value")).any
      (fun propName => strictNe (prev.get propName) (next.get propName)) = false := by
  rw [List.any_eq_false]
  intro name hmem
  simp only [List.mem_filter, bne_iff_ne, ne_eq, mem_uniqueNames] at hmem
  simp [h name hmem.1 hmem.2]

/-- C4, as the claim states it, fails: a prop set whose `value` is `NaN`,
compared with itself, asks for an update. -/
theorem nan_props_update :
    shouldComponentUpdate [("type", .str "Number"), ("value", .nan)]
      [("type", .str "Number"), ("value", .nan)] = true := by
  decide

/-- C4, amended. For every prop set none of whose properties is `NaN`,
`shouldComponentUpdate` with next props identical to the previous ones returns
false. -/
theorem same_props_no_update (p : PropSet) (h : ∀ kv ∈ p, kv.2.isNaN = false) :
    shouldComponentUpdate p p = false := by
  have hget : ∀ name, strictNe (p.get name) (p.get name) = false := by
    intro name
    unfold strictNe
    rcases get_mem_or_undefined p name with hu | ⟨kv, hkv, he⟩
    · rw [hu]; rfl
    · rw [strictEq_self _ (he ▸ h kv hkv)]; rfl
  unfold shouldComponentUpdate
  simp [hget]

/-- A prop set with primitives, `null`, `undefined`, a callback and objects,
one of which holds `NaN` inside, compared with itself. -/
theorem same_props_no_update_witness :
    (∀ kv ∈ ([("type", .str "Object"), ("value", .obj 1 [("a", .nan), ("b", .arr 2 [.num 1])]),
        ("hidden", .bool false), ("width", .num 150), ("onSelect", .func 3),
        ("className", .undefined), ("filters", .null)] : PropSet), kv.2.isNaN = false) ∧
      shouldComponentUpdate
        [("type", .str "Object"), ("value", .obj 1 [("a", .nan), ("b", .arr 2 [.num 1])]),
          ("hidden", .bool false), ("width", .num 150), ("onSelect", .func 3),
          ("className", .undefined), ("filters", .null)]
        [("type", .str "Object"), ("value", .obj 1 [("a", .nan), ("b", .arr 2 [.num 1])]),
          ("hidden", .bool false), ("width", .num 150), ("onSelect", .func 3),
          ("className", .undefined), ("filters", .null)] = false :=
  ⟨by decide, same_props_no_update _ (by decide)⟩

/-- C5. When a property other than `value` differs by identity between the two
prop sets (a property absent from one being `undefined` there),
`shouldComponentUpdate` returns true, whatever the two `value` fields are. -/
theorem changed_prop_updates (prev next : PropSet) (name : String) (hname : name ≠ "value")
    (hdiff : strictNe (prev.get name) (next.get name) = true) :
    shouldComponentUpdate prev next = true := by
  have hmem : name ∈ prev.keys ++ next.keys := by
    by_contra hn
    simp only [List.mem_append, not_or] at hn
    rw [get_undefined_of_not_mem prev name hn.1, get_undefined_of_not_mem next name hn.2] at hdiff
    simp [strictNe, strictEq] at hdiff
  have hany : ((uniqueNames (prev.keys ++ next.keys)).filter
      (fun propName => propName != "value")).any
      (fun propName => strictNe (prev.get propName) (next.get propName)) = true := by
    rw [List.any_eq_true]
    exact ⟨name, by simp [List.mem_filter, mem_uniqueNames, hname, List.mem_append.mp hmem],
      hdiff⟩
  unfold shouldComponentUpdate
  simp only [hany, if_true]

/-- The prop `current`, absent before and true afterwards, with the same object
as `value` on both sides. -/
theorem changed_prop_updates_witness :
    "current" ≠ "value" ∧
      strictNe (PropSet.get [("value", .obj 1 [])] "current")
        (PropSet.get [("value", .obj 1 []), ("current", .bool true)] "current") = true ∧
      shouldComponentUpdate [("value", .obj 1 [])]
        [("value", .obj 1 []), ("current", .bool true)] = true :=
  ⟨by decide, by decide,
    changed_prop_updates [("value", .obj 1 [])] [("value", .obj 1 []), ("current", .bool true)]
      "current" (by decide) (by decide)⟩

mutual
/-- Values of the same shape have the same JSON text. -/
theorem serialize_eq_of_sameShape :
    ∀ (a b : JSValue), sameShape a b = true → serialize a = serialize b
  | .undefined, b, h => by cases b <;> simp_all [sameShape, serialize]
  | .null, b, h => by cases b <;> simp_all [sameShape, serialize]
  | .bool _, b, h => by cases b <;> simp_all [sameShape, serialize]
  | .num _, b, h => by cases b <;> simp_all [sameShape, serialize]
  | .nan, b, h => by cases b <;> simp_all [sameShape, serialize]
  | .str _, b, h => by cases b <;> simp_all [sameShape, serialize]
  | .func _, b, h => by cases b <;> simp_all [sameShape, serialize]
  | .obj _ fs, b, h => by
    cases b with
    | obj _ gs =>
      simp only [sameShape] at h
      simp [serialize, serializeFields_eq_of_sameShape fs gs h]
    | _ => simp [sameShape] at h
  | .arr _ xs, b, h => by
    cases b with
    | arr _ ys =>
      simp only [sameShape] at h
      simp [serialize, serializeItems_eq_of_sameShape xs ys h]
    | _ => simp [sameShape] at h
  | .inst _ _ _ j, b, h => by
    cases b with
    | inst _ _ _ k =>
      simp only [sameShape, Bool.and_eq_true] at h
      simp [serialize, serialize_eq_of_sameShape j k h.2]
    | _ => simp [sameShape] at h
/-- Members of the same shape have the same JSON texts. -/
theorem serializeFields_eq_of_sameShape : ∀ (fs gs : List (String × JSValue)),
    sameShapeFields fs gs = true → serializeFields fs = serializeFields gs
  | [], gs, h => by cases gs <;> simp_all [sameShapeFields]
  | (k, v) :: fs, gs, h => by
    cases gs with
    | nil => simp [sameShapeFields] at h
    | cons g gs =>
      obtain ⟨l, w⟩ := g
      simp only [sameShapeFields, Bool.and_eq_true, beq_iff_eq] at h
      obtain ⟨⟨rfl, hv⟩, hr⟩ := h
      simp [serializeFields, serialize_eq_of_sameShape v w hv,
        serializeFields_eq_of_sameShape fs gs hr]
/-- Elements of the same shape have the same JSON texts. -/
theorem serializeItems_eq_of_sameShape : ∀ (xs ys : List JSValue),
    sameShapeItems xs ys = true → serializeItems xs = serializeItems ys
  | [], ys, h => by cases ys <;> simp_all [sameShapeItems]
  | v :: xs, ys, h => by
    cases ys with
    | nil => simp [sameShapeItems] at h
    | cons w ys =>
      simp only [sameShapeItems, Bool.and_eq_true] at h
      simp [serializeItems, serialize_eq_of_sameShape v w h.1,
        serializeItems_eq_of_sameShape xs ys h.2]
end

/-- C6, as the claim states it, fails: two objects with the same set of keys,
each mapped to the same value, but enumerated in a different order, ask for an
update. -/
theorem key_order_updates :
    sameMembers [("a", .num 1), ("b", .num 2)] [("b", .num 2), ("a", .num 1)] = true ∧
      shouldComponentUpdate [("type", .str "Object"), ("value", .obj 1 [("a", .num 1), ("b", .num 2)])]
        [("type", .str "Object"), ("value", .obj 2 [("b", .num 2), ("a", .num 1)])] = true := by
  decide

/-- C6, amended. When the properties other than `value` are identical and the
two `value` fields are plain objects with the same keys in the same order, each
mapped to the same value, `shouldComponentUpdate` returns false, whether or not
the two objects are the same reference. -/
theorem same_shape_no_update (prev next : PropSet) (r s : Nat)
    (fs gs : List (String × JSValue))
    (hprops : ∀ name ∈ prev.keys ++ next.keys, name ≠ "value" →
      strictNe (prev.get name) (next.get name) = false)
    (hprev : prev.get "value" = .obj r fs) (hnext : next.get "value" = .obj s gs)
    (hshape : sameShapeFields fs gs = true) :
    shouldComponentUpdate prev next = false := by
  have hser : stringify (.obj r fs) = stringify (.obj s gs) := by
    unfold stringify
    rw [serialize_eq_of_sameShape (.obj r fs) (.obj s gs) (by simpa [sameShape] using hshape)]
  unfold shouldComponentUpdate
  simp only [no_shallow_change prev next hprops, hprev, hnext, hser]
  simp [typeOf, strictNe, strictEq]

/-- Two objects parsed from the same JSON text, held at different
references. -/
theorem same_shape_no_update_witness :
    shouldComponentUpdate
        [("hidden", .bool false), ("value", .obj 1 [("a", .num 1), ("b", .arr 3 [.str "x", .null])])]
        [("hidden", .bool false), ("value", .obj 2 [("a", .num 1), ("b", .arr 4 [.str "x", .null])])]
      = false :=
  same_shape_no_update _ _ 1 2 _ _ (by decide) rfl rfl (by decide)

/-! ## The JSON text of JSON data determines its shape -/

theorem digitChar_isDigit (d : Nat) (h : d < 10) : (Nat.digitChar d).isDigit = true := by
  interval_cases d <;> decide

theorem digitValue_digitChar (d : Nat) (h : d < 10) : digitValue (Nat.digitChar d) = d := by
  interval_cases d <;> decide

theorem toDigitsCore_append (fuel : Nat) : ∀ (n : Nat) (ds : List Char),
    Nat.toDigitsCore 10 fuel n ds = Nat.toDigitsCore 10 fuel n [] ++ ds := by
  induction fuel with
  | zero => intro n ds; simp [Nat.toDigitsCore]
  | succ fuel ih =>
    intro n ds
    simp only [Nat.toDigitsCore]
    split
    · simp
    · rw [ih (n / 10) (Nat.digitChar (n % 10) :: ds), ih (n / 10) [Nat.digitChar (n % 10)]]
      simp

theorem toDigitsCore_spec (fuel : Nat) : ∀ (n : Nat), n < fuel →
    (∀ c ∈ Nat.toDigitsCore 10 fuel n [], c.isDigit = true) ∧
    Nat.toDigitsCore 10 fuel n [] ≠ [] ∧
    decodeDigits (Nat.toDigitsCore 10 fuel n []) = n := by
  induction fuel with
  | zero => intro n h; omega
  | succ fuel ih =>
    intro n h
    simp only [Nat.toDigitsCore]
    have hd : n % 10 < 10 := Nat.mod_lt _ (by decide)
    split
    · rename_i h0
      refine ⟨?_, by simp, ?_⟩
      · intro c hc
        simp only [List.mem_singleton] at hc
        rw [hc]; exact digitChar_isDigit _ hd
      · simp only [decodeDigits, List.foldl, Nat.zero_mul, Nat.zero_add]
        rw [digitValue_digitChar _ hd]
        omega
    · rename_i h0
      have hlt : n / 10 < fuel := by omega
      obtain ⟨h1, h2, h3⟩ := ih (n / 10) hlt
      rw [toDigitsCore_append]
      refine ⟨?_, by simp [h2], ?_⟩
      · intro c hc
        simp only [List.mem_append, List.mem_singleton] at hc
        rcases hc with hc | hc
        · exact h1 c hc
        · rw [hc]; exact digitChar_isDigit _ hd
      · unfold decodeDigits at h3 ⊢
        rw [List.foldl_append, h3]
        simp only [List.foldl]
        rw [digitValue_digitChar _ hd]
        omega

theorem toDigits_isDigit (n : Nat) : ∀ c ∈ Nat.toDigits 10 n, c.isDigit = true :=
  (toDigitsCore_spec (n + 1) n (Nat.lt_succ_self n)).1

theorem toDigits_ne_nil (n : Nat) : Nat.toDigits 10 n ≠ [] :=
  (toDigitsCore_spec (n + 1) n (Nat.lt_succ_self n)).2.1

theorem decodeDigits_toDigits (n : Nat) : decodeDigits (Nat.toDigits 10 n) = n :=
  (toDigitsCore_spec (n + 1) n (Nat.lt_succ_self n)).2.2

theorem toDigits_injective (n m : Nat) (h : Nat.toDigits 10 n = Nat.toDigits 10 m) : n = m := by
  rw [← decodeDigits_toDigits n, ← decodeDigits_toDigits m, h]

/-- Splitting a text at the end of its leading run of characters of one kind. -/
theorem append_inj_of_run (p : Char → Bool) : ∀ (xs ys r1 r2 : List Char),
    (∀ c ∈ xs, p c = true) → (∀ c ∈ ys, p c = true) →
    (∀ c, r1.head? = some c → p c = false) → (∀ c, r2.head? = some c → p c = false) →
    xs ++ r1 = ys ++ r2 → xs = ys ∧ r1 = r2 := by
  intro xs
  induction xs with
  | nil =>
    intro ys r1 r2 _ hy h1 _ h
    cases ys with
    | nil => exact ⟨rfl, by simpa using h⟩
    | cons y ys =>
      simp only [List.nil_append, List.cons_append] at h
      have := h1 y (by rw [h]; rfl)
      rw [hy y (List.mem_cons_self _ _)] at this
      exact absurd this (by decide)
  | cons x xs ih =>
    intro ys r1 r2 hx hy h1 h2 h
    cases ys with
    | nil =>
      simp only [List.nil_append, List.cons_append] at h
      have := h2 x (by rw [← h]; rfl)
      rw [hx x (List.mem_cons_self _ _)] at this
      exact absurd this (by decide)
    | cons y ys =>
      simp only [List.cons_append, List.cons.injEq] at h
      obtain ⟨hxy, hrest⟩ := h
      obtain ⟨h3, h4⟩ := ih ys r1 r2 (fun c hc => hx c (List.mem_cons_of_mem _ hc))
        (fun c hc => hy c (List.mem_cons_of_mem _ hc)) h1 h2 hrest
      exact ⟨by rw [hxy, h3], h4⟩

theorem int_toString_toList (n : Int) :
    (toString n).toList = match n with
      | Int.ofNat m => Nat.toDigits 10 m
      | Int.negSucc m => '-' :: Nat.toDigits 10 (m + 1) := by
  cases n with
  | ofNat m => rfl
  | negSucc m => rfl

theorem hexValue_hexDigit (d : Nat) (h : d < 16) : hexValue (hexDigit d) = d := by
  interval_cases d <;> decide

theorem char_eq_of_toNat (c : Char) (n : Nat) (h : c.toNat = n) : c = Char.ofNat n := by
  rw [← h, Char.ofNat_toNat]

theorem unescapeHead_escapeChar (c : Char) (rest : List Char) :
    unescapeHead (escapeChar c ++ rest) = some (c, rest) := by
  unfold escapeChar
  split_ifs with h1 h2 h3 h4 h5 h6 h7 h8
  · subst h1; rfl
  · subst h2; rfl
  · rw [char_eq_of_toNat c 8 h3]; rfl
  · rw [char_eq_of_toNat c 9 h4]; rfl
  · rw [char_eq_of_toNat c 10 h5]; rfl
  · rw [char_eq_of_toNat c 12 h6]; rfl
  · rw [char_eq_of_toNat c 13 h7]; rfl
  · have hu : unescapeHead ([backslash, 'u', '0', '0', hexDigit (c.toNat / 16),
        hexDigit (c.toNat % 16)] ++ rest) =
        some (Char.ofNat (hexValue (hexDigit (c.toNat / 16)) * 16 +
          hexValue (hexDigit (c.toNat % 16))), rest) := rfl
    rw [hu, hexValue_hexDigit _ (by omega), hexValue_hexDigit _ (by omega)]
    have : c.toNat / 16 * 16 + c.toNat % 16 = c.toNat := by omega
    rw [this, Char.ofNat_toNat]
  · simp [unescapeHead, h1, h2]

theorem escapeChar_inj (c d : Char) (r1 r2 : List Char)
    (h : escapeChar c ++ r1 = escapeChar d ++ r2) : c = d ∧ r1 = r2 := by
  have h1 := unescapeHead_escapeChar c r1
  rw [h, unescapeHead_escapeChar d r2] at h1
  simp only [Option.some.injEq, Prod.mk.injEq] at h1
  exact ⟨h1.1.symm, h1.2.symm⟩

theorem escapeChar_ne_dquote (c : Char) (r1 r2 : List Char) :
    escapeChar c ++ r1 ≠ dquote :: r2 := by
  intro h
  have h1 := unescapeHead_escapeChar c r1
  rw [h] at h1
  simp [unescapeHead] at h1

theorem escapeChars_inj : ∀ (s t r1 r2 : List Char),
    escapeChars s ++ dquote :: r1 = escapeChars t ++ dquote :: r2 → s = t ∧ r1 = r2 := by
  intro s
  induction s with
  | nil =>
    intro t r1 r2 h
    cases t with
    | nil => simpa [escapeChars] using h
    | cons d t =>
      simp only [escapeChars, List.nil_append, List.append_assoc] at h
      exact absurd h.symm (escapeChar_ne_dquote d _ _)
  | cons c s ih =>
    intro t r1 r2 h
    cases t with
    | nil =>
      simp only [escapeChars, List.nil_append, List.append_assoc] at h
      exact absurd h (escapeChar_ne_dquote c _ _)
    | cons d t =>
      simp only [escapeChars, List.append_assoc] at h
      obtain ⟨hcd, hrest⟩ := escapeChar_inj c d _ _ h
      obtain ⟨hst, hr⟩ := ih t r1 r2 hrest
      exact ⟨by rw [hcd, hst], hr⟩

theorem quoteJSON_inj (s t : String) (r1 r2 : List Char)
    (h : quoteJSON s ++ r1 = quoteJSON t ++ r2) : s = t ∧ r1 = r2 := by
  unfold quoteJSON at h
  simp only [List.cons_append, List.append_assoc, List.singleton_append, List.cons.injEq,
    true_and] at h
  obtain ⟨h1, h2⟩ := escapeChars_inj _ _ _ _ h
  exact ⟨String.ext h1, h2⟩


theorem num_inj (n m : Int) (r1 r2 : List Char) (h1 : endsValue r1 = true)
    (h2 : endsValue r2 = true)
    (h : (toString n).toList ++ r1 = (toString m).toList ++ r2) : n = m ∧ r1 = r2 := by
  have hsafe : ∀ r : List Char, endsValue r = true → ∀ c, r.head? = some c → c.isDigit = false := by
    intro r hr c hc
    cases r with
    | nil => simp at hc
    | cons x xs =>
      simp only [List.head?_cons, Option.some.injEq] at hc
      subst hc
      simp only [endsValue, Bool.or_eq_true, beq_iff_eq] at hr
      rcases hr with (hr | hr) | hr <;> (rw [hr]; decide)
  have hhead : ∀ (k : Nat) (rest rest' : List Char),
      Nat.toDigits 10 k ++ rest ≠ '-' :: rest' := by
    intro k rest rest'
    have hne := toDigits_ne_nil k
    have hd := toDigits_isDigit k
    cases hk : Nat.toDigits 10 k with
    | nil => exact absurd hk hne
    | cons c cs =>
      have hc : c.isDigit = true := hd c (by rw [hk]; exact List.mem_cons_self _ _)
      intro habs
      simp only [List.cons_append, List.cons.injEq] at habs
      rw [habs.1] at hc
      exact absurd hc (by decide)
  rw [int_toString_toList n, int_toString_toList m] at h
  cases n with
  | ofNat a =>
    cases m with
    | ofNat b =>
      simp only at h
      obtain ⟨hd, hr⟩ := append_inj_of_run Char.isDigit _ _ r1 r2 (toDigits_isDigit a)
        (toDigits_isDigit b) (hsafe r1 h1) (hsafe r2 h2) h
      exact ⟨by rw [toDigits_injective a b hd], hr⟩
    | negSucc b =>
      simp only [List.cons_append] at h
      exact absurd h (hhead a r1 _)
  | negSucc a =>
    cases m with
    | ofNat b =>
      simp only [List.cons_append] at h
      exact absurd h.symm (hhead b r2 _)
    | negSucc b =>
      simp only [List.cons_append, List.cons.injEq, true_and] at h
      obtain ⟨hd, hr⟩ := append_inj_of_run Char.isDigit _ _ r1 r2 (toDigits_isDigit (a + 1))
        (toDigits_isDigit (b + 1)) (hsafe r1 h1) (hsafe r2 h2) h
      have := toDigits_injective _ _ hd
      exact ⟨by rw [Nat.add_right_cancel this], hr⟩

theorem commaJoin_cons (x : List Char) (xs : List (List Char)) :
    commaJoin (x :: xs) = x ++ commaTail xs := by
  induction xs generalizing x with
  | nil => simp [commaJoin, commaTail]
  | cons y ys ih => simp [commaJoin, commaTail, ih]

theorem serialize_isSome (a : JSValue) (h : isJSONData a = true) : ∃ s, serialize a = some s := by
  cases a <;> simp [isJSONData] at h <;> simp [serialize]

theorem serialize_lead (a : JSValue) (s : List Char) (h : isJSONData a = true)
    (hs : serialize a = some s) : ∃ c rest, s = c :: rest ∧ leadKind c = valueKind a := by
  cases a with
  | null =>
    simp only [serialize, Option.some.injEq] at hs
    subst hs
    exact ⟨'n', _, rfl, (by decide : leadKind 'n' = 0)⟩
  | bool b =>
    simp only [serialize, Option.some.injEq] at hs
    subst hs
    cases b
    · exact ⟨'f', _, rfl, (by decide : leadKind 'f' = 1)⟩
    · exact ⟨'t', _, rfl, (by decide : leadKind 't' = 1)⟩
  | num n =>
    simp only [serialize, Option.some.injEq] at hs
    subst hs
    rw [int_toString_toList]
    have hdig : ∀ c : Char, c.isDigit = true → leadKind c = 2 := by
      intro c hc
      have h1 : ¬ c = 'n' := by
        intro he; subst he; exact absurd hc (by decide)
      have h2 : ¬ (c = 't' ∨ c = 'f') := by
        intro he
        rcases he with he | he <;> (subst he; exact absurd hc (by decide))
      unfold leadKind
      rw [if_neg h1, if_neg h2, if_pos (Or.inl hc)]
    cases n with
    | ofNat k =>
      have hne := toDigits_ne_nil k
      have hd := toDigits_isDigit k
      cases hk : Nat.toDigits 10 k with
      | nil => exact absurd hk hne
      | cons c cs =>
        exact ⟨c, cs, by simp [hk], hdig c (hd c (by rw [hk]; exact List.mem_cons_self _ _))⟩
    | negSucc k => exact ⟨'-', _, rfl, (by decide : leadKind '-' = 2)⟩
  | str t =>
    simp only [serialize, Option.some.injEq] at hs
    subst hs
    exact ⟨dquote, _, rfl, (by decide : leadKind dquote = 3)⟩
  | obj r fs =>
    simp only [serialize, Option.some.injEq] at hs
    subst hs
    exact ⟨lbrace, _, rfl, (by decide : leadKind lbrace = 4)⟩
  | arr r xs =>
    simp only [serialize, Option.some.injEq] at hs
    subst hs
    exact ⟨'[', _, rfl, (by decide : leadKind '[' = 5)⟩
  | undefined => simp [isJSONData] at h
  | nan => simp [isJSONData] at h
  | func r => simp [isJSONData] at h
  | inst r c fs j => simp [isJSONData] at h


theorem kind_eq (a b : JSValue) (s t r1 r2 : List Char) (ha : isJSONData a = true)
    (hb : isJSONData b = true) (hs : serialize a = some s) (ht : serialize b = some t)
    (h : s ++ r1 = t ++ r2) : valueKind a = valueKind b := by
  obtain ⟨c, cs, rfl, hc⟩ := serialize_lead a s ha hs
  obtain ⟨d, ds, rfl, hd⟩ := serialize_lead b t hb ht
  simp only [List.cons_append, List.cons.injEq] at h
  rw [← hc, ← hd, h.1]

theorem endsValue_commaTail (xs : List (List Char)) (c : Char) (r : List Char)
    (hc : c = rbrace ∨ c = ']') : endsValue (commaTail xs ++ c :: r) = true := by
  cases xs with
  | nil =>
    rcases hc with hc | hc <;> (subst hc; simp [commaTail, endsValue])
  | cons x xs => simp [commaTail, endsValue]

theorem serializeFields_cons (k : String) (v : JSValue) (fs : List (String × JSValue))
    (tv : List Char) (hv : serialize v = some tv) :
    serializeFields ((k, v) :: fs) = (quoteJSON k ++ ':' :: tv) :: serializeFields fs := by
  simp [serializeFields, hv]

theorem serializeItems_cons (v : JSValue) (xs : List JSValue)
    (tv : List Char) (hv : serialize v = some tv) :
    serializeItems (v :: xs) = tv :: serializeItems xs := by
  simp [serializeItems, hv]

theorem quoteJSON_head (k : String) : ∃ rest, quoteJSON k = dquote :: rest :=
  ⟨_, rfl⟩

mutual
/-- The JSON text of a value of JSON data, read from the front of a text,
determines the shape of the value and what follows it. -/
theorem serialize_inj : ∀ (a b : JSValue) (s t r1 r2 : List Char),
    isJSONData a = true → isJSONData b = true → serialize a = some s → serialize b = some t →
    endsValue r1 = true → endsValue r2 = true → s ++ r1 = t ++ r2 →
    sameShape a b = true ∧ r1 = r2
  | .undefined, _, _, _, _, _, ha, _, _, _, _, _, _ => by simp [isJSONData] at ha
  | .nan, _, _, _, _, _, ha, _, _, _, _, _, _ => by simp [isJSONData] at ha
  | .func _, _, _, _, _, _, ha, _, _, _, _, _, _ => by simp [isJSONData] at ha
  | .inst _ _ _ _, _, _, _, _, _, ha, _, _, _, _, _, _ => by simp [isJSONData] at ha
  | .null, b, s, t, r1, r2, ha, hb, hs, ht, _, _, h => by
    have hk := kind_eq _ _ _ _ _ _ ha hb hs ht h
    cases b <;> simp [valueKind] at hk
    simp only [serialize, Option.some.injEq] at hs ht
    subst hs; subst ht
    exact ⟨by simp [sameShape], List.append_cancel_left h⟩
  | .bool x, b, s, t, r1, r2, ha, hb, hs, ht, _, _, h => by
    have hk := kind_eq _ _ _ _ _ _ ha hb hs ht h
    cases b <;> simp [valueKind] at hk
    rename_i y
    simp only [serialize, Option.some.injEq] at hs ht
    subst hs; subst ht
    cases x <;> cases y <;> simp [sameShape] at h ⊢
    · exact h
    · exact h
  | .num n, b, s, t, r1, r2, ha, hb, hs, ht, h1, h2, h => by
    have hk := kind_eq _ _ _ _ _ _ ha hb hs ht h
    cases b <;> simp [valueKind] at hk
    rename_i m
    simp only [serialize, Option.some.injEq] at hs ht
    subst hs; subst ht
    obtain ⟨hnm, hr⟩ := num_inj n m r1 r2 h1 h2 h
    exact ⟨by simp [sameShape, hnm], hr⟩
  | .str x, b, s, t, r1, r2, ha, hb, hs, ht, _, _, h => by
    have hk := kind_eq _ _ _ _ _ _ ha hb hs ht h
    cases b <;> simp [valueKind] at hk
    rename_i y
    simp only [serialize, Option.some.injEq] at hs ht
    subst hs; subst ht
    obtain ⟨hxy, hr⟩ := quoteJSON_inj x y r1 r2 h
    exact ⟨by simp [sameShape, hxy], hr⟩
  | .obj _ [], b, s, t, r1, r2, ha, hb, hs, ht, _, _, h => by
    have hk := kind_eq _ _ _ _ _ _ ha hb hs ht h
    cases b <;> simp [valueKind] at hk
    rename_i r' gs
    simp only [serialize, Option.some.injEq] at hs ht
    subst hs; subst ht
    cases gs with
    | nil =>
      simp only [serializeFields, commaJoin, List.nil_append, List.cons_append,
        List.cons.injEq, true_and] at h
      exact ⟨by simp [sameShape, sameShapeFields], h⟩
    | cons g gs =>
      obtain ⟨l, w⟩ := g
      simp only [isJSONData, isJSONFields, Bool.and_eq_true] at hb
      obtain ⟨tw, hw⟩ := serialize_isSome w hb.1
      obtain ⟨q, hq⟩ := quoteJSON_head l
      rw [serializeFields_cons l w gs tw hw, commaJoin_cons, hq] at h
      simp only [serializeFields, commaJoin, List.nil_append, List.cons_append,
        List.cons.injEq, true_and] at h
      exact absurd h.1 (by decide)
  | .obj _ ((k, v) :: fs), b, s, t, r1, r2, ha, hb, hs, ht, _, _, h => by
    have hk := kind_eq _ _ _ _ _ _ ha hb hs ht h
    cases b <;> simp [valueKind] at hk
    rename_i r' gs
    simp only [serialize, Option.some.injEq] at hs ht
    subst hs; subst ht
    simp only [isJSONData, isJSONFields, Bool.and_eq_true] at ha
    obtain ⟨tv, hv⟩ := serialize_isSome v ha.1
    cases gs with
    | nil =>
      obtain ⟨q, hq⟩ := quoteJSON_head k
      rw [serializeFields_cons k v fs tv hv, commaJoin_cons, hq] at h
      simp only [serializeFields, commaJoin, List.nil_append, List.cons_append,
        List.cons.injEq, true_and] at h
      exact absurd h.1 (by decide)
    | cons g gs =>
      obtain ⟨l, w⟩ := g
      simp only [isJSONData, isJSONFields, Bool.and_eq_true] at hb
      obtain ⟨tw, hw⟩ := serialize_isSome w hb.1
      rw [serializeFields_cons k v fs tv hv, serializeFields_cons l w gs tw hw,
        commaJoin_cons, commaJoin_cons] at h
      simp only [List.cons_append, List.append_assoc, List.singleton_append, List.cons.injEq,
        true_and] at h
      obtain ⟨hkl, h⟩ := quoteJSON_inj k l _ _ h
      simp only [List.cons.injEq, true_and] at h
      obtain ⟨hvw, h⟩ := serialize_inj v w tv tw _ _ ha.1 hb.1 hv hw
        (endsValue_commaTail _ rbrace r1 (Or.inl rfl))
        (endsValue_commaTail _ rbrace r2 (Or.inl rfl)) h
      obtain ⟨hrest, hr⟩ := fieldsTail_inj fs gs r1 r2 ha.2 hb.2 h
      exact ⟨by simp [sameShape, sameShapeFields, hkl, hvw, hrest], hr⟩
  | .arr _ [], b, s, t, r1, r2, ha, hb, hs, ht, _, _, h => by
    have hk := kind_eq _ _ _ _ _ _ ha hb hs ht h
    cases b <;> simp [valueKind] at hk
    rename_i r' ys
    simp only [serialize, Option.some.injEq] at hs ht
    subst hs; subst ht
    cases ys with
    | nil =>
      simp only [serializeItems, commaJoin, List.nil_append, List.cons_append,
        List.cons.injEq, true_and] at h
      exact ⟨by simp [sameShape, sameShapeItems], h⟩
    | cons w ys =>
      simp only [isJSONData, isJSONItems, Bool.and_eq_true] at hb
      obtain ⟨tw, hw⟩ := serialize_isSome w hb.1
      obtain ⟨c, cs, hcs, hc⟩ := serialize_lead w tw hb.1 hw
      rw [serializeItems_cons w ys tw hw, commaJoin_cons, hcs] at h
      simp only [serializeItems, commaJoin, List.nil_append, List.cons_append,
        List.cons.injEq, true_and] at h
      rw [← h.1] at hc
      have hlt : valueKind w < 6 := by cases w <;> simp [isJSONData] at hb <;> simp [valueKind]
      rw [← hc] at hlt
      exact absurd hlt (by decide)
  | .arr _ (v :: xs), b, s, t, r1, r2, ha, hb, hs, ht, _, _, h => by
    have hk := kind_eq _ _ _ _ _ _ ha hb hs ht h
    cases b <;> simp [valueKind] at hk
    rename_i r' ys
    simp only [serialize, Option.some.injEq] at hs ht
    subst hs; subst ht
    simp only [isJSONData, isJSONItems, Bool.and_eq_true] at ha
    obtain ⟨tv, hv⟩ := serialize_isSome v ha.1
    cases ys with
    | nil =>
      obtain ⟨c, cs, hcs, hc⟩ := serialize_lead v tv ha.1 hv
      rw [serializeItems_cons v xs tv hv, commaJoin_cons, hcs] at h
      simp only [serializeItems, commaJoin, List.nil_append, List.cons_append,
        List.cons.injEq, true_and] at h
      rw [h.1] at hc
      have hlt : valueKind v < 6 := by cases v <;> simp [isJSONData] at ha <;> simp [valueKind]
      rw [← hc] at hlt
      exact absurd hlt (by decide)
    | cons w ys =>
      simp only [isJSONData, isJSONItems, Bool.and_eq_true] at hb
      obtain ⟨tw, hw⟩ := serialize_isSome w hb.1
      rw [serializeItems_cons v xs tv hv, serializeItems_cons w ys tw hw,
        commaJoin_cons, commaJoin_cons] at h
      simp only [List.cons_append, List.append_assoc, List.singleton_append, List.cons.injEq,
        true_and] at h
      obtain ⟨hvw, h⟩ := serialize_inj v w tv tw _ _ ha.1 hb.1 hv hw
        (endsValue_commaTail _ ']' r1 (Or.inr rfl))
        (endsValue_commaTail _ ']' r2 (Or.inr rfl)) h
      obtain ⟨hrest, hr⟩ := itemsTail_inj xs ys r1 r2 ha.2 hb.2 h
      exact ⟨by simp [sameShape, sameShapeItems, hvw, hrest], hr⟩
/-- The members after the first one, read from the front of a text. -/
theorem fieldsTail_inj : ∀ (fs gs : List (String × JSValue)) (r1 r2 : List Char),
    isJSONFields fs = true → isJSONFields gs = true →
    commaTail (serializeFields fs) ++ rbrace :: r1 =
      commaTail (serializeFields gs) ++ rbrace :: r2 →
    sameShapeFields fs gs = true ∧ r1 = r2
  | [], gs, r1, r2, _, hb, h => by
    cases gs with
    | nil =>
      simp only [serializeFields, commaTail, List.nil_append, List.cons.injEq, true_and] at h
      exact ⟨by simp [sameShapeFields], h⟩
    | cons g gs =>
      obtain ⟨l, w⟩ := g
      simp only [isJSONFields, Bool.and_eq_true] at hb
      obtain ⟨tw, hw⟩ := serialize_isSome w hb.1
      rw [serializeFields_cons l w gs tw hw] at h
      simp only [serializeFields, commaTail, List.nil_append, List.cons_append,
        List.cons.injEq] at h
      exact absurd h.1 (by decide)
  | (k, v) :: fs, gs, r1, r2, ha, hb, h => by
    simp only [isJSONFields, Bool.and_eq_true] at ha
    obtain ⟨tv, hv⟩ := serialize_isSome v ha.1
    cases gs with
    | nil =>
      rw [serializeFields_cons k v fs tv hv] at h
      simp only [serializeFields, commaTail, List.nil_append, List.cons_append,
        List.cons.injEq] at h
      exact absurd h.1 (by decide)
    | cons g gs =>
      obtain ⟨l, w⟩ := g
      simp only [isJSONFields, Bool.and_eq_true] at hb
      obtain ⟨tw, hw⟩ := serialize_isSome w hb.1
      rw [serializeFields_cons k v fs tv hv, serializeFields_cons l w gs tw hw] at h
      simp only [commaTail, List.cons_append, List.append_assoc, List.cons.injEq,
        true_and] at h
      obtain ⟨hkl, h⟩ := quoteJSON_inj k l _ _ h
      simp only [List.cons.injEq, true_and] at h
      obtain ⟨hvw, h⟩ := serialize_inj v w tv tw _ _ ha.1 hb.1 hv hw
        (endsValue_commaTail _ rbrace r1 (Or.inl rfl))
        (endsValue_commaTail _ rbrace r2 (Or.inl rfl)) h
      obtain ⟨hrest, hr⟩ := fieldsTail_inj fs gs r1 r2 ha.2 hb.2 h
      exact ⟨by simp [sameShapeFields, hkl, hvw, hrest], hr⟩
/-- The elements after the first one, read from the front of a text. -/
theorem itemsTail_inj : ∀ (xs ys : List JSValue) (r1 r2 : List Char),
    isJSONItems xs = true → isJSONItems ys = true →
    commaTail (serializeItems xs) ++ ']' :: r1 = commaTail (serializeItems ys) ++ ']' :: r2 →
    sameShapeItems xs ys = true ∧ r1 = r2
  | [], ys, r1, r2, _, hb, h => by
    cases ys with
    | nil =>
      simp only [serializeItems, commaTail, List.nil_append, List.cons.injEq, true_and] at h
      exact ⟨by simp [sameShapeItems], h⟩
    | cons w ys =>
      simp only [isJSONItems, Bool.and_eq_true] at hb
      obtain ⟨tw, hw⟩ := serialize_isSome w hb.1
      rw [serializeItems_cons w ys tw hw] at h
      simp only [serializeItems, commaTail, List.nil_append, List.cons_append,
        List.cons.injEq] at h
      exact absurd h.1 (by decide)
  | v :: xs, ys, r1, r2, ha, hb, h => by
    simp only [isJSONItems, Bool.and_eq_true] at ha
    obtain ⟨tv, hv⟩ := serialize_isSome v ha.1
    cases ys with
    | nil =>
      rw [serializeItems_cons v xs tv hv] at h
      simp only [serializeItems, commaTail, List.nil_append, List.cons_append,
        List.cons.injEq] at h
      exact absurd h.1 (by decide)
    | cons w ys =>
      simp only [isJSONItems, Bool.and_eq_true] at hb
      obtain ⟨tw, hw⟩ := serialize_isSome w hb.1
      rw [serializeItems_cons v xs tv hv, serializeItems_cons w ys tw hw] at h
      simp only [commaTail, List.cons_append, List.append_assoc, List.cons.injEq,
        true_and] at h
      obtain ⟨hvw, h⟩ := serialize_inj v w tv tw _ _ ha.1 hb.1 hv hw
        (endsValue_commaTail _ ']' r1 (Or.inr rfl))
        (endsValue_commaTail _ ']' r2 (Or.inr rfl)) h
      obtain ⟨hrest, hr⟩ := itemsTail_inj xs ys r1 r2 ha.2 hb.2 h
      exact ⟨by simp [sameShapeItems, hvw, hrest], hr⟩
end


/-- Members of the same shape are the same set of keys with the same values. -/
theorem lookup_sameShape : ∀ (fs gs : List (String × JSValue)),
    sameShapeFields fs gs = true → ∀ k : String,
      (fs.lookup k = none ∧ gs.lookup k = none) ∨
      (∃ v w, fs.lookup k = some v ∧ gs.lookup k = some w ∧ sameShape v w = true)
  | [], gs, h, k => by
    cases gs with
    | nil => left; simp
    | cons g gs => simp [sameShapeFields] at h
  | (a, v) :: fs, gs, h, k => by
    cases gs with
    | nil => simp [sameShapeFields] at h
    | cons g gs =>
      obtain ⟨b, w⟩ := g
      simp only [sameShapeFields, Bool.and_eq_true, beq_iff_eq] at h
      obtain ⟨⟨rfl, hv⟩, hr⟩ := h
      by_cases hk : k = a
      · right
        subst hk
        exact ⟨v, w, by simp [List.lookup], by simp [List.lookup], hv⟩
      · have hne : (k == a) = false := by simpa using hk
        simp only [List.lookup, hne]
        exact lookup_sameShape fs gs hr k

/-- Objects of the same shape have the same set of keys, each mapped to the
same value: objects that differ in a key or in a value differ in shape. -/
theorem sameMembers_of_sameShapeFields (fs gs : List (String × JSValue))
    (h : sameShapeFields fs gs = true) : sameMembers fs gs = true := by
  have hl := lookup_sameShape fs gs h
  unfold sameMembers
  simp only [Bool.and_eq_true, List.all_eq_true]
  refine ⟨⟨?_, ?_⟩, ?_⟩
  · intro kv hkv
    have hs : (fs.lookup kv.1).isSome = true := by
      rw [List.lookup_isSome_iff]; exact ⟨kv, hkv, by simp⟩
    rcases hl kv.1 with ⟨h1, _⟩ | ⟨v, w, _, h2, _⟩
    · rw [h1] at hs; simp at hs
    · rw [h2]; rfl
  · intro kv hkv
    have hs : (gs.lookup kv.1).isSome = true := by
      rw [List.lookup_isSome_iff]; exact ⟨kv, hkv, by simp⟩
    rcases hl kv.1 with ⟨_, h2⟩ | ⟨v, w, h1, _, _⟩
    · rw [h2] at hs; simp at hs
    · rw [h1]; rfl
  · intro kv hkv
    have hs : (fs.lookup kv.1).isSome = true := by
      rw [List.lookup_isSome_iff]; exact ⟨kv, hkv, by simp⟩
    rcases hl kv.1 with ⟨h1, _⟩ | ⟨v, w, h1, h2, hvw⟩
    · rw [h1] at hs; simp at hs
    · rw [h1, h2]; exact hvw

/-- C7, as the claim states it, fails: an object whose only key holds
`undefined` and the empty object differ in a key, yet have the same JSON text,
and no update is asked for. -/
theorem undefined_member_no_update :
    sameMembers [("a", .undefined)] [] = false ∧
      shouldComponentUpdate [("type", .str "Object"), ("value", .obj 1 [("a", .undefined)])]
        [("type", .str "Object"), ("value", .obj 2 [])] = false := by
  decide

/-- C7, amended. When the two `value` fields are plain objects at different
references, both made of JSON data (`null`, booleans, integers, strings, arrays
and plain objects of these), that differ in shape (in a key, in the order of
the keys or in a value), `shouldComponentUpdate` returns true. -/
theorem different_shape_updates (prev next : PropSet) (r s : Nat)
    (fs gs : List (String × JSValue))
    (hprev : prev.get "value" = .obj r fs) (hnext : next.get "value" = .obj s gs)
    (href : r ≠ s) (hjson1 : isJSONFields fs = true) (hjson2 : isJSONFields gs = true)
    (hshape : sameShapeFields fs gs = false) :
    shouldComponentUpdate prev next = true := by
  have hser : stringify (.obj r fs) ≠ stringify (.obj s gs) := by
    intro heq
    unfold stringify at heq
    obtain ⟨t1, h1⟩ := serialize_isSome (.obj r fs) (by simpa [isJSONData] using hjson1)
    obtain ⟨t2, h2⟩ := serialize_isSome (.obj s gs) (by simpa [isJSONData] using hjson2)
    rw [h1, h2] at heq
    simp only [Option.map_some', Option.some.injEq] at heq
    have hdata : t1 = t2 := congrArg String.data heq
    have h := serialize_inj (.obj r fs) (.obj s gs) t1 t2 [] []
      (by simpa [isJSONData] using hjson1) (by simpa [isJSONData] using hjson2) h1 h2 rfl rfl
      (by rw [hdata])
    simp only [sameShape] at h
    rw [h.1] at hshape
    exact absurd hshape (by decide)
  unfold shouldComponentUpdate
  by_cases hany : ((uniqueNames (prev.keys ++ next.keys)).filter
      (fun propName => propName != "value")).any
      (fun propName => strictNe (prev.get propName) (next.get propName)) = true
  · simp only [hany, if_true]
  · simp only [hany, hprev, hnext]
    simp [typeOf, strictNe, strictEq, href, hser]

/-- Two objects at different references whose member `a` holds 1 in one and 2
in the other, and two that differ in the order of their keys. -/
theorem different_shape_updates_witness :
    shouldComponentUpdate [("hidden", .bool false), ("value", .obj 1 [("a", .num 1)])]
        [("hidden", .bool false), ("value", .obj 2 [("a", .num 2)])] = true ∧
      shouldComponentUpdate
        [("value", .obj 1 [("a", .str "x"), ("b", .arr 3 [.null, .bool true])])]
        [("value", .obj 2 [("b", .arr 4 [.null, .bool true]), ("a", .str "x")])] = true :=
  ⟨different_shape_updates _ _ 1 2 [("a", .num 1)] [("a", .num 2)] rfl rfl (by decide)
      (by decide) (by decide) (by decide),
    different_shape_updates _ _ 1 2 _ _ rfl rfl (by decide) (by decide) (by decide)
      (by decide)⟩

/-! ## The context menu -/

theorem relatedGroups_text (props : Props) :
    ∀ g ∈ relatedGroups props, g.text = "Get related records from..." := by
  intro g hg
  unfold relatedGroups at hg
  simp only at hg
  split at hg
  · split at hg
    · simp only [List.mem_singleton] at hg
      rw [hg]
    · simp at hg
  · simp at hg

/-- With nothing bound to `Filters`, the first read of it ends the making of the
menu: no group is made. -/
theorem menuItems_unbound (ext : Externals) (props : Props) (copyableValue : JSValue)
    (h : ext.Filters = none) :
    menuItems ext props copyableValue = .error filtersNotDefined := by
  simp [menuItems, filterGroups, offeredConstraints, readFilters, h, filtersNotDefined]

/-- With nothing bound to `Filters`, a genuine context-menu event makes the
three calls that precede the menu and then raises: `setContextMenu` is not
called. -/
theorem onContextMenu_unbound (ext : Externals) (props : Props) (copyableValue : JSValue)
    (e : Event) (h : ext.Filters = none) (hev : e.type = "contextmenu") :
    onContextMenu ext props copyableValue e =
      ⟨[.preventDefault, .onSelect props.row props.col,
        .setCopyableValue (if props.hidden then .undefined else copyableValue)],
        some filtersNotDefined⟩ := by
  unfold onContextMenu
  simp only [hev, menuItems_unbound ext props copyableValue h]
  simp

/-- When a menu is made, a catalog is bound to `Filters`; the menu is the
related-records group alone when no constraint is offered, and otherwise
"Set filter...", then "Add filter..." when filters are applied, then the
related-records group. -/
theorem menuItems_spec (ext : Externals) (props : Props) (copyableValue : JSValue)
    (menu : List MenuGroup) (h : menuItems ext props copyableValue = .ok menu) :
    (∃ catalog, ext.Filters = some catalog) ∧
    ((offeredConstraints ext props = .ok none ∧ menu = relatedGroups props) ∨
    (∃ cs items, offeredConstraints ext props = .ok (some cs) ∧
      filterActions ext props.field props.value props.type copyableValue cs = .ok items ∧
      menu = (if hasFilters props then [⟨"Set filter...", items⟩, ⟨"Add filter...", items⟩]
        else [⟨"Set filter...", items⟩]) ++ relatedGroups props)) := by
  have hbound : ∃ catalog, ext.Filters = some catalog := by
    cases hf : ext.Filters with
    | none =>
      rw [menuItems_unbound ext props copyableValue hf] at h
      cases h
    | some catalog => exact ⟨catalog, rfl⟩
  refine ⟨hbound, ?_⟩
  unfold menuItems filterGroups at h
  cases hc : offeredConstraints ext props with
  | error err => simp [hc] at h
  | ok offered =>
    cases offered with
    | none =>
      left
      simp only [hc, List.nil_append, Except.ok.injEq] at h
      exact ⟨rfl, h.symm⟩
    | some cs =>
      right
      simp only [hc] at h
      cases hi : filterActions ext props.field props.value props.type copyableValue cs with
      | error err => simp [hi] at h
      | ok items =>
        simp only [hi] at h
        refine ⟨cs, items, rfl, hi, ?_⟩
        by_cases hf : hasFilters props = true
        · simp only [hf, if_true, Except.ok.injEq] at h ⊢
          exact h.symm
        · simp only [hf, Except.ok.injEq] at h ⊢
          simpa using h.symm

/-- The sub-actions of "Add filter..." are those of "Set filter...", callbacks
included: the two groups bind `pickFilter` to the constraint in the same way,
and nothing tells `pickFilter` to add to the applied filters. -/
theorem add_items_eq_set_items (ext : Externals) (props : Props) (copyableValue : JSValue)
    (setItems addItems : List MenuAction) (rest : List MenuGroup)
    (h : menuItems ext props copyableValue =
      .ok (⟨"Set filter...", setItems⟩ :: ⟨"Add filter...", addItems⟩ :: rest)) :
    addItems = setItems := by
  rcases (menuItems_spec ext props copyableValue _ h).2 with ⟨_, hm⟩ | ⟨cs, items, _, _, hm⟩
  · have := relatedGroups_text props ⟨"Set filter...", setItems⟩ (hm ▸ List.mem_cons_self _ _)
    exact absurd this (by simp)
  · by_cases hf : hasFilters props = true
    · simp only [hf, if_true, List.cons_append, List.nil_append, List.cons.injEq,
        MenuGroup.mk.injEq, true_and] at hm
      rw [hm.1, hm.2.1]
    · simp only [hf, Bool.false_eq_true, if_false, List.singleton_append, List.cons.injEq,
        MenuGroup.mk.injEq, true_and] at hm
      have := relatedGroups_text props ⟨"Add filter...", addItems⟩
        (hm.2 ▸ List.mem_cons_self _ _)
      exact absurd this (by simp)

/-- C8: the code at the failing input. The module binds nothing to `Filters`:
on a genuine context-menu event of the sample cell, which has a filter applied,
the making of the filter groups raises ReferenceError at its first step, after
`preventDefault`, `onSelect` and `setCopyableValue`; neither "Set filter..." nor
"Add filter..." is made and `setContextMenu` is not called. -/
theorem filter_groups_never_built :
    sampleProps.filters = some [⟨"title", "exists", .undefined⟩] ∧
      filterGroups sampleExternals sampleProps (.str "x") = .error filtersNotDefined ∧
      onContextMenu sampleExternals sampleProps (.str "x") ⟨"contextmenu", .num 40, .num 60⟩ =
        ⟨[.preventDefault, .onSelect (.num 0) (.num 1), .setCopyableValue (.str "x")],
          some filtersNotDefined⟩ :=
  ⟨rfl, rfl, rfl⟩

/-- C9: the code at the failing input. As the module is written, a genuine
context-menu event of the sample cell, which has the filter on `title` applied,
raises ReferenceError before any group is made: no "Add filter..." action
exists and `onFilterChange` is not called.  Once a catalog is bound to
`Filters`, the "Add filter..." group carries the very callbacks of
"Set filter...", and the one for `exists`, run without argument, passes
`onFilterChange` the new filter alone: the applied filter is gone. -/
theorem add_filter_callback_starts_fresh :
    sampleProps.filters = some [⟨"title", "exists", .undefined⟩] ∧
      onContextMenu sampleExternals sampleProps (.str "x") ⟨"contextmenu", .num 40, .num 60⟩ =
        ⟨[.preventDefault, .onSelect (.num 0) (.num 1), .setCopyableValue (.str "x")],
          some filtersNotDefined⟩ ∧
      menuItems injectedExternals sampleProps (.str "x") =
        .ok [⟨"Set filter...",
            [⟨"name exists", .pickFilter "name" (.str "x") "String" "exists"⟩,
              ⟨"name equals x", .pickFilter "name" (.str "x") "String" "eq"⟩]⟩,
          ⟨"Add filter...",
            [⟨"name exists", .pickFilter "name" (.str "x") "String" "exists"⟩,
              ⟨"name equals x", .pickFilter "name" (.str "x") "String" "eq"⟩]⟩] ∧
      (Callback.pickFilter "name" (.str "x") "String" "exists").invoke 0 sampleProps [] =
        ⟨[.onFilterChange [⟨"name", "exists", .str "x"⟩]], none⟩ :=
  ⟨rfl, rfl, rfl, rfl⟩

/-- C10: the code at the failing input. As the module is written, a genuine
context-menu event of the sample Pointer cell raises ReferenceError when the
offered constraints are asked for: no "Set filter..." sub-action is made, so
there is no callback to run and `onFilterChange` is not called.  The function
`pickFilter` that the callbacks would bind has a gap of its own: for a Pointer
cell that holds the wire form of a reference, which `render` accepts, it raises
in `value.toPointer()` and does not call `onFilterChange`. -/
theorem set_filter_actions_never_built :
    offeredConstraints sampleExternals samplePointerProps = .error filtersNotDefined ∧
      menuItems sampleExternals samplePointerProps (.str "abc123") =
        .error filtersNotDefined ∧
      onContextMenu sampleExternals samplePointerProps (.str "abc123")
          ⟨"contextmenu", .num 40, .num 60⟩ =
        ⟨[.preventDefault, .onSelect (.num 0) (.num 2), .setCopyableValue (.str "abc123")],
          some filtersNotDefined⟩ ∧
      pickFilter samplePointerProps "author"
          (.obj 4 [("__type", .str "Pointer"), ("className", .str "User"),
            ("objectId", .str "abc123")]) "Pointer" "eq" .undefined =
        ⟨[], some "TypeError: value.toPointer is not a function"⟩ :=
  ⟨rfl, rfl, rfl, rfl⟩

/-! ## Related records -/

theorem strictNe_str (x : JSValue) (C : String) :
    strictNe x (.str C) = !(match x with
      | .str t => t == C
      | _ => false) := by
  cases x <;> simp [strictNe, strictEq]

theorem relatedItems_columns (props : Props) (C : String) (cls : String)
    (cols : List (String × Column)) :
    cols.filterMap (fun column =>
      if strictNe column.2.targetClass (.str C) then none
      else some (⟨cls, .relatedRecords (.str C) props.value cls column.1⟩ : MenuAction)) =
    ((cols.filter (fun column =>
      match column.2.targetClass with
      | .str t => t == C
      | _ => false)).map (fun column => (cls, column.1))).map
        (fun p => ⟨p.1, .relatedRecords (.str C) props.value p.1 p.2⟩) := by
  induction cols with
  | nil => rfl
  | cons col cols ih =>
    rw [List.filterMap_cons, List.filter_cons, ih, strictNe_str]
    cases hm : (match col.2.targetClass with
      | .str t => t == C
      | _ => false) with
    | true => simp
    | false => simp

theorem relatedItems_spec (props : Props) (C : String) :
    relatedItems props (.str C) =
      (targetingColumns props.schema C).map
        (fun p => ⟨p.1, .relatedRecords (.str C) props.value p.1 p.2⟩) := by
  unfold relatedItems targetingColumns
  induction props.schema with
  | nil => rfl
  | cons cls rest ih =>
    rw [List.flatMap_cons, List.flatMap_cons, List.map_append, ih, relatedItems_columns]

theorem relatedGroups_spec (props : Props) (C : String) (hC : C ≠ "")
    (hp : pointerClassName props = .str C) :
    relatedGroups props =
      if (targetingColumns props.schema C).isEmpty then []
      else [⟨"Get related records from...", (targetingColumns props.schema C).map
        (fun p => ⟨p.1, .relatedRecords (.str C) props.value p.1 p.2⟩)⟩] := by
  unfold relatedGroups
  simp only [hp, truthy, relatedItems_spec]
  have : (C != "") = true := by simpa using hC
  simp only [this, if_true, List.length_map]
  cases targetingColumns props.schema C with
  | nil => simp
  | cons x xs => simp


theorem truthy_str (C : String) (hC : C ≠ "") : truthy (.str C) = true := by
  simpa [truthy] using hC

/-- A value that carries a class name is a reference to that class, with or
without an id. -/
theorem pointerClassName_value (props : Props) (C : String) (hC : C ≠ "")
    (hv : truthy props.value = true) (hcn : getProp props.value "className" = .ok (.str C)) :
    pointerClassName props = .str C := by
  unfold pointerClassName
  simp only [hv, hcn, if_true, truthy_str C hC]

/-- What the code of the related-records group does with a value that carries
the class name `C`, whether or not it has an id: one action per schema column
that targets `C`, labelled with the class of the column, and no group when no
column targets `C`. -/
theorem related_records_of_reference (props : Props) (C : String) (hC : C ≠ "")
    (hv : truthy props.value = true)
    (hcn : getProp props.value "className" = .ok (.str C)) :
    relatedGroups props =
      if (targetingColumns props.schema C).isEmpty then []
      else [⟨"Get related records from...", (targetingColumns props.schema C).map
        (fun p => ⟨p.1, .relatedRecords (.str C) props.value p.1 p.2⟩)⟩] :=
  relatedGroups_spec props C hC (pointerClassName_value props C hC hv hcn)

/-- C11: the code at the failing input. In the sample schema `Comment.post` and
`Like.target` refer to `Post`, yet as the module is written a genuine
context-menu event of the objectId cell of a `Post` raises ReferenceError
before the code of the related-records group, which would make the two actions,
is reached: no group is made and `setContextMenu` is not called. -/
theorem related_records_never_reached :
    targetingColumns sampleObjectIdProps.schema "Post" =
        [("Comment", "post"), ("Like", "target")] ∧
      relatedGroups sampleObjectIdProps =
        [⟨"Get related records from...",
          [⟨"Comment", .relatedRecords (.str "Post") (.str "p1") "Comment" "post"⟩,
            ⟨"Like", .relatedRecords (.str "Post") (.str "p1") "Like" "target"⟩]⟩] ∧
      menuItems sampleExternals sampleObjectIdProps (.str "p1") = .error filtersNotDefined ∧
      onContextMenu sampleExternals sampleObjectIdProps (.str "p1")
          ⟨"contextmenu", .num 40, .num 60⟩ =
        ⟨[.preventDefault, .onSelect (.num 0) (.num 0), .setCopyableValue (.str "p1")],
          some filtersNotDefined⟩ :=
  ⟨by decide, rfl, rfl, rfl⟩

/-- C17: the code at the failing input. For the cell whose value is a `Post`
object without id, a genuine context-menu event raises ReferenceError, as the
module is written, before the related-records group is looked at.  The code of
that group does not look at the id either: it makes an action for each of
`Comment.post` and `Like.target`, and the callback of such an action raises in
`toPointer()` without calling `onPointerClick`. -/
theorem unsaved_reference_raises :
    getProp sampleUnsavedProps.value "id" = .ok .undefined ∧
      onContextMenu sampleExternals sampleUnsavedProps .undefined
          ⟨"contextmenu", .num 40, .num 60⟩ =
        ⟨[.preventDefault, .onSelect (.num 0) (.num 3), .setCopyableValue .undefined],
          some filtersNotDefined⟩ ∧
      relatedGroups sampleUnsavedProps =
        [⟨"Get related records from...",
          [⟨"Comment", .relatedRecords (.str "Post") sampleUnsavedProps.value "Comment" "post"⟩,
            ⟨"Like", .relatedRecords (.str "Post") sampleUnsavedProps.value "Like" "target"⟩]⟩] ∧
      (Callback.relatedRecords (.str "Post") sampleUnsavedProps.value "Comment" "post").invoke 0
          sampleUnsavedProps [] =
        ⟨[], some "Error: Cannot create a pointer to an unsaved ParseObject"⟩ :=
  ⟨rfl, rfl, rfl, rfl⟩

/-! ## More of the value formatter -/

/-- C12. For a non-hidden Pointer cell whose value is the wire form of a
reference, with a truthy `__type`, the class name `cn` and the id `id`: the
copyable value left by `render` is `id`, a click publishes `id` through
`setCopyableValue`, and the handle bound to the pointer-click callback of the
badge has the class name `cn` and the id `id`. -/
theorem render_wire_pointer (ext : Externals) (fresh : Nat) (props : Props) (r : Nat)
    (fs : List (String × JSValue)) (t id : JSValue) (cn : String)
    (htype : fs.lookup "__type" = some t) (ht : truthy t = true)
    (hcn : fs.lookup "className" = some (.str cn)) (hid : fs.lookup "objectId" = some id) :
    render ext fresh { props with type := "Pointer", hidden := false, value := .obj r fs } =
        .ok ⟨.pointerLink (newParseObject fresh (.str cn) id) id, id,
          if props.current then [.cell, .unselectable, .current] else [.cell, .unselectable]⟩ ∧
      getProp (newParseObject fresh (.str cn) id) "className" = .ok (.str cn) ∧
      getProp (newParseObject fresh (.str cn) id) "id" = .ok id ∧
      onClick { props with type := "Pointer", hidden := false, value := .obj r fs } id =
        ⟨[.onSelect props.row props.col, .setCopyableValue id], none⟩ := by
  refine ⟨?_, rfl, rfl, rfl⟩
  have h1 : getProp (.obj r fs) "__type" = .ok t := by simp [getProp, htype]
  have h2 : getProp (.obj r fs) "className" = .ok (.str cn) := by simp [getProp, hcn]
  have h3 : getProp (.obj r fs) "objectId" = .ok id := by simp [getProp, hid]
  have h4 : getProp (newParseObject fresh (.str cn) id) "id" = .ok id := rfl
  have h5 : truthy (.obj r fs) = true := rfl
  simp only [render, strictEq, h1, h2, h3, h4, h5, ht, bind, Except.bind, pure, Except.pure]
  simp

/-- The example of C12: the wire form of the user `abc123` publishes 'abc123'
and the handle is (User, abc123). -/
theorem render_wire_pointer_witness :
    render sampleExternals 10 { sampleProps with
        type := "Pointer", hidden := false,
        value := .obj 4 [("__type", .str "Pointer"), ("className", .str "User"),
          ("objectId", .str "abc123")] } =
        .ok ⟨.pointerLink (newParseObject 10 (.str "User") (.str "abc123")) (.str "abc123"),
          .str "abc123",
          if sampleProps.current then [.cell, .unselectable, .current]
          else [.cell, .unselectable]⟩ ∧
      getProp (newParseObject 10 (.str "User") (.str "abc123")) "className" =
        .ok (.str "User") ∧
      getProp (newParseObject 10 (.str "User") (.str "abc123")) "id" = .ok (.str "abc123") ∧
      onClick { sampleProps with
        type := "Pointer", hidden := false,
        value := .obj 4 [("__type", .str "Pointer"), ("className", .str "User"),
          ("objectId", .str "abc123")] } (.str "abc123") =
        ⟨[.onSelect sampleProps.row sampleProps.col, .setCopyableValue (.str "abc123")], none⟩ :=
  render_wire_pointer sampleExternals 10 sampleProps 4 _ (.str "Pointer") (.str "abc123") "User"
    rfl rfl rfl rfl

/-- C14. With `value = null` and `hidden = false`, `render` does not raise and
yields display and copyable value "(null)", styled empty, whatever the type. -/
theorem render_null (ext : Externals) (fresh : Nat) (props : Props) :
    render ext fresh { props with value := .null, hidden := false } =
      .ok ⟨.value (.str "(null)"), .str "(null)",
        if props.current then [.cell, .unselectable, .empty, .current]
        else [.cell, .unselectable, .empty]⟩ := by
  simp [render, strictEq]

theorem itemTexts_str (l : List String) : itemTexts (l.map JSValue.str) = l := by
  induction l with
  | nil => rfl
  | cons x xs ih => simp [itemTexts, toText, ih]

/-- C15, as the claim states it, fails: for the polygon with the vertices (1, 2)
and (3, 4), display and copyable value are the array of the two pieces, not the
text of the pieces joined by commas. -/
theorem render_polygon_is_array :
    render sampleExternals 10 { sampleProps with type := "Polygon", value := samplePolygon } =
        .ok ⟨.value (.arr 10 [.str "(1,2)", .str "(3,4)"]), .arr 10 [.str "(1,2)", .str "(3,4)"],
          [.cell, .unselectable]⟩ ∧
      JSValue.arr 10 [.str "(1,2)", .str "(3,4)"] ≠ .str "(1,2),(3,4)" :=
  ⟨rfl, fun h => by cases h⟩

/-- C15, amended. For a non-hidden Polygon cell whose value has the vertices
`coords`, display and copyable value are one and the same array, which holds
the piece "(c)" of every vertex `c`, in vertex order; the string conversion of
that array is the pieces joined by commas. -/
theorem render_polygon (ext : Externals) (fresh : Nat) (props : Props) (r : Nat)
    (coords : List JSValue) (htype : props.type = "Polygon") (hh : props.hidden = false)
    (hc : getProp props.value "coordinates" = .ok (.arr r coords)) :
    render ext fresh props =
        .ok ⟨.value (.arr fresh ((polygonPieces coords).map .str)),
          .arr fresh ((polygonPieces coords).map .str),
          if props.current then [.cell, .unselectable, .current] else [.cell, .unselectable]⟩ ∧
      toText (.arr fresh ((polygonPieces coords).map .str)) =
        ",".intercalate (polygonPieces coords) := by
  constructor
  · have hmap : coords.map (fun coord => JSValue.str ("(" ++ toText coord ++ ")")) =
        (polygonPieces coords).map .str := by
      simp [polygonPieces, List.map_map, Function.comp_def]
    obtain ⟨type, value, hidden, current, width, row, col, field, className, filters,
      simplifiedSchema, schema⟩ := props
    simp only at htype hh hc
    subst htype
    subst hh
    cases value <;> simp [getProp] at hc
    all_goals
      simp only [render, strictEq, getProp, hc, bind, Except.bind, pure, Except.pure, hmap]
      simp
  · simp [toText, itemTexts_str]

/-- The polygon with the vertices (1, 2) and (3, 4): the array of "(1,2)" and
"(3,4)", whose string conversion is "(1,2),(3,4)". -/
theorem render_polygon_witness :
    (render sampleExternals 10 { sampleProps with type := "Polygon", value := samplePolygon } =
        .ok ⟨.value (.arr 10 ((polygonPieces [.arr 7 [.num 1, .num 2],
            .arr 8 [.num 3, .num 4]]).map .str)),
          .arr 10 ((polygonPieces [.arr 7 [.num 1, .num 2], .arr 8 [.num 3, .num 4]]).map .str),
          if sampleProps.current then [.cell, .unselectable, .current]
          else [.cell, .unselectable]⟩ ∧
      toText (.arr 10 ((polygonPieces [.arr 7 [.num 1, .num 2],
          .arr 8 [.num 3, .num 4]]).map .str)) =
        ",".intercalate (polygonPieces [.arr 7 [.num 1, .num 2], .arr 8 [.num 3, .num 4]])) ∧
      polygonPieces [.arr 7 [.num 1, .num 2], .arr 8 [.num 3, .num 4]] = ["(1,2)", "(3,4)"] ∧
      ",".intercalate (polygonPieces [.arr 7 [.num 1, .num 2], .arr 8 [.num 3, .num 4]]) =
        "(1,2),(3,4)" :=
  ⟨render_polygon sampleExternals 10
      { sampleProps with type := "Polygon", value := samplePolygon } 6 _ rfl rfl rfl,
    by decide, by decide⟩

/-! ## The viewport scroller and the event handlers -/

/-- C13. After an update of the current cell, with the left boundary 300 when
the window is wider than 980 and 0 otherwise, and the top boundary 126: the
horizontal scroll is done exactly when the left edge is left of the boundary or
the right edge is beyond the width of the window; the vertical scroll is done
exactly when that is not so and the top edge is above 126 or the bottom edge
is beyond the height of the window; the two are never both done. -/
theorem scroll_into_view (props : Props) (copyableValue : JSValue) (rect : Rect)
    (innerWidth innerHeight : Int) (hcur : props.current = true) :
    (Call.scrollIntoView "nearest" "start" ∈
        componentDidUpdate props copyableValue rect innerWidth innerHeight ↔
      (rect.left < (if innerWidth > 980 then 300 else 0) ∨ rect.right > innerWidth)) ∧
    (Call.scrollIntoView "nearest" "nearest" ∈
        componentDidUpdate props copyableValue rect innerWidth innerHeight ↔
      (¬(rect.left < (if innerWidth > 980 then 300 else 0) ∨ rect.right > innerWidth) ∧
        (rect.top < 126 ∨ rect.bottom > innerHeight))) ∧
    ¬(Call.scrollIntoView "nearest" "start" ∈
        componentDidUpdate props copyableValue rect innerWidth innerHeight ∧
      Call.scrollIntoView "nearest" "nearest" ∈
        componentDidUpdate props copyableValue rect innerWidth innerHeight) := by
  unfold componentDidUpdate
  simp only [hcur, if_true]
  by_cases hh : rect.left < (if innerWidth > 980 then 300 else 0) ∨ rect.right > innerWidth
  · have hb : (decide (rect.left < (if innerWidth > 980 then 300 else 0)) ||
        decide (rect.right > innerWidth)) = true := by simpa using hh
    simp only [hb, if_true]
    by_cases hid : props.hidden = true <;> simp [hid, hh]
  · have hb : (decide (rect.left < (if innerWidth > 980 then 300 else 0)) ||
        decide (rect.right > innerWidth)) = false := by simpa using hh
    simp only [hb]
    by_cases hv : rect.top < 126 ∨ rect.bottom > innerHeight
    · have hvb : (decide (rect.top < 126) || decide (rect.bottom > innerHeight)) = true := by
        simpa using hv
      simp only [hvb, if_true]
      by_cases hid : props.hidden = true <;> simp [hid, hh, hv]
    · have hvb : (decide (rect.top < 126) || decide (rect.bottom > innerHeight)) = false := by
        simpa using hv
      simp only [hvb]
      by_cases hid : props.hidden = true <;> simp [hid, hh, hv]

/-- The examples of C13 in a window 1200 wide and 800 high: the cell whose left
edge is at 250 is scrolled horizontally, the cell whose left edge is at 350 and
whose top edge is at 50 is scrolled vertically and not horizontally. -/
theorem scroll_into_view_witness :
    ((Call.scrollIntoView "nearest" "start" ∈
          componentDidUpdate samplePointerProps .undefined ⟨250, 400, 300, 200⟩ 1200 800 ↔
        ((250 : Int) < (if (1200 : Int) > 980 then 300 else 0) ∨ (400 : Int) > 1200)) ∧
      (Call.scrollIntoView "nearest" "nearest" ∈
          componentDidUpdate samplePointerProps .undefined ⟨250, 400, 300, 200⟩ 1200 800 ↔
        (¬((250 : Int) < (if (1200 : Int) > 980 then 300 else 0) ∨ (400 : Int) > 1200) ∧
          ((200 : Int) < 126 ∨ (300 : Int) > 800))) ∧
      ¬(Call.scrollIntoView "nearest" "start" ∈
          componentDidUpdate samplePointerProps .undefined ⟨250, 400, 300, 200⟩ 1200 800 ∧
        Call.scrollIntoView "nearest" "nearest" ∈
          componentDidUpdate samplePointerProps .undefined ⟨250, 400, 300, 200⟩ 1200 800)) ∧
    componentDidUpdate samplePointerProps (.str "abc123") ⟨250, 400, 300, 200⟩ 1200 800 =
      [.scrollIntoView "nearest" "start", .setCopyableValue (.str "abc123")] ∧
    componentDidUpdate samplePointerProps (.str "abc123") ⟨350, 500, 150, 50⟩ 1200 800 =
      [.scrollIntoView "nearest" "nearest", .setCopyableValue (.str "abc123")] :=
  ⟨scroll_into_view samplePointerProps .undefined ⟨250, 400, 300, 200⟩ 1200 800 rfl, rfl, rfl⟩

/-- C16: the code at every input. As the module is written, with nothing bound
to `Filters`, a genuine context-menu event makes the calls `preventDefault`,
`onSelect` and `setCopyableValue` and then raises ReferenceError: the list of
actions is never assembled and `setContextMenu` is never called, whatever the
cell, its schema and the position of the event. -/
theorem context_menu_never_opens (ext : Externals) (props : Props) (copyableValue : JSValue)
    (x y : JSValue) :
    onContextMenu { ext with Filters := none } props copyableValue ⟨"contextmenu", x, y⟩ =
        ⟨[.preventDefault, .onSelect props.row props.col,
          .setCopyableValue (if props.hidden then .undefined else copyableValue)],
          some filtersNotDefined⟩ ∧
      ∀ items, Call.setContextMenu x y items ∉
        (onContextMenu { ext with Filters := none } props copyableValue
          ⟨"contextmenu", x, y⟩).calls := by
  have h := onContextMenu_unbound { ext with Filters := none } props copyableValue
    ⟨"contextmenu", x, y⟩ rfl rfl
  refine ⟨h, ?_⟩
  intro items
  rw [h]
  simp

/-- C18. The touch-end handler calls `onEditChange(true)` exactly when the cell
is current and its type is not 'Relation'; it calls `preventDefault` exactly
when, in addition, the type is 'ACL', 'Boolean' or 'File', and then before
`onEditChange`; for the type 'Relation' neither touch-end nor double-click
makes any call. -/
theorem touch_end (props : Props) :
    (Call.onEditChange true ∈ (onTouchEnd props).calls ↔
      (props.current = true ∧ props.type ≠ "Relation")) ∧
    (Call.preventDefault ∈ (onTouchEnd props).calls ↔
      (props.current = true ∧ props.type ≠ "Relation" ∧
        (props.type = "ACL" ∨ props.type = "Boolean" ∨ props.type = "File"))) ∧
    (Call.preventDefault ∈ (onTouchEnd props).calls →
      (onTouchEnd props).calls = [.preventDefault, .onEditChange true]) ∧
    (props.type = "Relation" →
      onTouchEnd props = ⟨[], none⟩ ∧ onDoubleClick props = ⟨[], none⟩) := by
  unfold onTouchEnd onDoubleClick
  by_cases hc : props.current = true
  · by_cases hr : props.type = "Relation"
    · simp [hc, hr]
    · by_cases ha : props.type = "ACL"
      · simp [hc, ha]
      · by_cases hb : props.type = "Boolean"
        · simp [hc, hb]
        · by_cases hf : props.type = "File"
          · simp [hc, hf]
          · simp [hc, hr, ha, hb, hf]
  · have hcf : props.current = false := by simpa using hc
    by_cases hr : props.type = "Relation"
    · simp [hcf, hr]
    · simp [hcf, hr]

theorem beq_swap {α : Type} [BEq α] [LawfulBEq α] (x y : α) : (x == y) = (y == x) := by
  by_cases h : x = y
  · subst h; rfl
  · have h1 : (x == y) = false := by simpa using h
    have h2 : (y == x) = false := by simpa using Ne.symm h
    rw [h1, h2]

theorem bne_swap {α : Type} [BEq α] [LawfulBEq α] (x y : α) : (x != y) = (y != x) := by
  simp only [bne, beq_swap x y]

theorem strictEq_comm (a b : JSValue) : strictEq a b = strictEq b a := by
  cases a <;> cases b <;> first | rfl | (simp only [strictEq]; exact beq_swap _ _)

theorem strictNe_comm (a b : JSValue) : strictNe a b = strictNe b a := by
  unfold strictNe
  rw [strictEq_comm]

/-- C19. The method `shouldComponentUpdate` gives the same answer when its two
prop sets are exchanged. -/
theorem shouldComponentUpdate_comm (a b : PropSet) :
    shouldComponentUpdate a b = shouldComponentUpdate b a := by
  have hany : ((uniqueNames (a.keys ++ b.keys)).filter
      (fun propName => propName != "value")).any
        (fun propName => strictNe (a.get propName) (b.get propName)) =
      ((uniqueNames (b.keys ++ a.keys)).filter
      (fun propName => propName != "value")).any
        (fun propName => strictNe (b.get propName) (a.get propName)) := by
    rw [Bool.eq_iff_iff]
    simp only [List.any_eq_true, List.mem_filter, mem_uniqueNames, List.mem_append]
    constructor
    · rintro ⟨x, ⟨hx, hv⟩, hne⟩
      exact ⟨x, ⟨hx.symm, hv⟩, by rw [strictNe_comm]; exact hne⟩
    · rintro ⟨x, ⟨hx, hv⟩, hne⟩
      exact ⟨x, ⟨hx.symm, hv⟩, by rw [strictNe_comm]; exact hne⟩
  unfold shouldComponentUpdate
  simp only [hany]
  split
  · rfl
  · by_cases ht : typeOf (a.get "value") = typeOf (b.get "value")
    · have hstr : (stringify (a.get "value") != stringify (b.get "value")) =
          (stringify (b.get "value") != stringify (a.get "value")) := bne_swap _ _
      simp only [ht, strictNe_comm (a.get "value") (b.get "value"), hstr]
    · have h1 : (typeOf (a.get "value") != typeOf (b.get "value")) = true := by simpa using ht
      have h2 : (typeOf (b.get "value") != typeOf (a.get "value")) = true := by
        rw [bne_swap]; exact h1
      simp only [h1, h2, if_true]

/-- C20. When `hidden` is true, whatever the type, the value and the copyable
value left by `render`: a click and a genuine context-menu event each pass
`undefined` to `setCopyableValue` and call it no second time, another event
and the step after an update do not call it at all; so two hidden cells that
differ in their value only make the same calls of `setCopyableValue`. -/
theorem hidden_never_publishes (ext : Externals) (props : Props) (v1 v2 cached1 cached2 : JSValue)
    (e : Event) (rect : Rect) (innerWidth innerHeight : Int) :
    copyCalls (onClick { props with hidden := true, value := v1 } cached1).calls =
        [.undefined] ∧
      copyCalls (onContextMenu ext { props with hidden := true, value := v1 } cached1 e).calls =
        (if e.type = "contextmenu" then [.undefined] else []) ∧
      copyCalls (componentDidUpdate { props with hidden := true, value := v1 } cached1 rect
        innerWidth innerHeight) = [] ∧
      copyCalls (onClick { props with hidden := true, value := v1 } cached1).calls =
        copyCalls (onClick { props with hidden := true, value := v2 } cached2).calls ∧
      copyCalls (onContextMenu ext { props with hidden := true, value := v1 } cached1 e).calls =
        copyCalls (onContextMenu ext { props with hidden := true, value := v2 } cached2 e).calls ∧
      copyCalls (componentDidUpdate { props with hidden := true, value := v1 } cached1 rect
          innerWidth innerHeight) =
        copyCalls (componentDidUpdate { props with hidden := true, value := v2 } cached2 rect
          innerWidth innerHeight) := by
  have hclick : ∀ v c, copyCalls (onClick { props with hidden := true, value := v } c).calls =
      [.undefined] := by
    intro v c
    simp [onClick, copyCalls]
  have hmenu : ∀ v c,
      copyCalls (onContextMenu ext { props with hidden := true, value := v } c e).calls =
        (if e.type = "contextmenu" then [.undefined] else []) := by
    intro v c
    unfold onContextMenu
    by_cases hev : e.type = "contextmenu"
    · simp only [hev, bne_self_eq_false, Bool.false_eq_true, if_false, if_true]
      cases menuItems ext { props with hidden := true, value := v } c with
      | error err => simp [copyCalls]
      | ok items =>
        by_cases hl : (items.length != 0) = true
        · simp [hl, copyCalls]
        · simp [hl, copyCalls]
    · have hne : (e.type != "contextmenu") = true := by simpa using hev
      simp [hne, hev, copyCalls]
  have hupdate : ∀ v c, copyCalls (componentDidUpdate { props with hidden := true, value := v } c
      rect innerWidth innerHeight) = [] := by
    intro v c
    unfold componentDidUpdate
    by_cases hc : props.current = true
    · simp only [hc, if_true, Bool.not_true, Bool.false_eq_true, if_false, List.append_nil]
      by_cases h1 : (decide (rect.left < (if innerWidth > 980 then 300 else 0)) ||
          decide (rect.right > innerWidth)) = true
      · simp only [h1, if_true]
        rfl
      · simp only [h1, Bool.false_eq_true, if_false]
        by_cases h2 : (decide (rect.top < 126) || decide (rect.bottom > innerHeight)) = true
        · simp only [h2, if_true]
          rfl
        · simp only [h2, Bool.false_eq_true, if_false]
          rfl
    · simp [hc, copyCalls]
  refine ⟨hclick v1 cached1, hmenu v1 cached1, hupdate v1 cached1, ?_, ?_, ?_⟩
  · rw [hclick, hclick]
  · rw [hmenu, hmenu]
  · rw [hupdate, hupdate]

end BrowserCell
